import Mathlib

/-!
# esgo: the command router (router.go)

A shallow embedding of `CommandRouter` and its operations `NewCommandRouter`,
`Push`, `AddCommandHandler`, `AddTaskHandler` and `SetAuth`.

* Go `error` values are `Option GoError` (`none` is `nil`).
* Interface values (`CommandHandler`, `TaskHandler`, `EventStore`, `Auther`)
  are `Iface`: `nil`, or a reference to an implementation.  Calling a method
  on `nil` panics.
* The behaviour of the collaborators lives in an `Env`: `Auth`, `Deal` and
  `Store` are state passing functions over a world `σ`, so a collaborator
  may answer differently on every call.
* Every collaborator call and every lock operation that an operation makes
  is recorded, in order, in a list of `Call`s.
* `D` is the type of the data the router never inspects (command payload,
  event body, store metadata, handler specific result payload).
-/

namespace Esgo

/-! ## Errors -/

/-- Go error values.  The three package level sentinels of router.go (lines
8 to 12) are distinct values; every other error is `other` with its text. -/
inductive GoError where
  | invalidCommand
  | failedStoreEvent
  | authFailed
  | other (msg : String)
  deriving DecidableEq

/-- Sentinel `InvalidCommand` (router.go line 9). -/
def InvalidCommand : GoError := GoError.invalidCommand

/-- Sentinel `FailedStoreEvent` (router.go line 10). -/
def FailedStoreEvent : GoError := GoError.failedStoreEvent

/-- Sentinel `AuthFailed` (router.go line 11). -/
def AuthFailed : GoError := GoError.authFailed

/-- The method `Error()` of a Go error: its text. -/
def GoError.Error : GoError → String
  | GoError.invalidCommand => "Invalid Command, or no handler set"
  | GoError.failedStoreEvent => "Failed to store event"
  | GoError.authFailed => "Not authorized"
  | GoError.other msg => msg

/-! ## Data -/

/-- An interface value: `nil` or a reference to an implementation. -/
inductive Iface where
  | nil
  | ref (id : Nat)
  deriving DecidableEq

/-- A command: the name that selects the handler, and a payload the router
never reads. -/
structure Command (D : Type) where
  Name : String
  Payload : D
  deriving DecidableEq

/-- An event, produced by a handler and handed to the store. -/
structure Event (D : Type) where
  Body : D
  deriving DecidableEq

/-- The outcome of a store attempt: an error (possibly nil) and the metadata
the store assigned. -/
structure StoreResult (D : Type) where
  Error : Option GoError
  Info : D
  deriving DecidableEq

/-- The result record returned by `Push`: the three fields router.go writes
(`Err`, `Error`, `ErrMsg`) and the remaining, handler specific fields. -/
structure CommandResult (D : Type) where
  Err : Option GoError
  Error : Bool
  ErrMsg : String
  Payload : D
  deriving DecidableEq

/-- The composite literal `&CommandResult{Err: e, Error: true, ErrMsg: e.Error()}`
of router.go lines 35 to 39, 48 to 52 and 59 to 63: the fields not listed have
their zero value. -/
def errResult {D : Type} [Inhabited D] (e : GoError) : CommandResult D :=
  { Err := some e, Error := true, ErrMsg := e.Error, Payload := default }

/-- A Go `map[string]V` with interface values. -/
abbrev GoMap := String → Option Iface

/-- The map made by `make(map[string]V)`. -/
def GoMap.empty : GoMap := fun _ => none

/-- The assignment `m[k] = v`. -/
def GoMap.set (m : GoMap) (k : String) (v : Iface) : GoMap :=
  fun k' => if k' = k then some v else m k'

/-- The struct `CommandRouter` (router.go lines 14 to 21).  The field `lock` is
not part of the record: its operations are recorded as `LockOp`s. -/
structure CommandRouter where
  cmdHandlers : GoMap
  taskMap : GoMap
  es : Iface
  auth : Iface
  authcmd : Bool

/-! ## Collaborators and recorded calls -/

/-- The operations on `r.lock`. -/
inductive LockOp where
  | rlock
  | runlock
  | lock
  | unlock
  deriving DecidableEq

/-- One recorded call made by `Push`. -/
inductive Call (D : Type) where
  | validate (cmd : Command D)
  | lockOp (op : LockOp)
  | auth (a : Nat) (cmd : Command D)
  | deal (h : Nat) (cmd : Command D)
  | store (s : Nat) (ev : Event D)
  | set (res : CommandResult D) (sres : StoreResult D)
  deriving DecidableEq

/-- The call is a call of an authorizer's `Auth`. -/
def Call.isAuth {D : Type} : Call D → Bool
  | Call.auth _ _ => true
  | _ => false

/-- The call is a call of a handler's `Deal`. -/
def Call.isDeal {D : Type} : Call D → Bool
  | Call.deal _ _ => true
  | _ => false

/-- The call is a call of a store's `Store`. -/
def Call.isStore {D : Type} : Call D → Bool
  | Call.store _ _ => true
  | _ => false

/-- The call is a call of a result's `Set`. -/
def Call.isSet {D : Type} : Call D → Bool
  | Call.set _ _ => true
  | _ => false

/-- The code router.go calls but does not contain.  `Validate` is the method
of `Command` and `Set` the method of `CommandResult`; `Auth`, `Deal` and
`Store` are the methods of the implementation behind a non-nil `Auther`,
`CommandHandler` and `EventStore`, each reading and writing the world `σ`.
`Deal` may return a nil result pointer (`none`). -/
structure Env (σ D : Type) where
  Validate : Command D → Option GoError
  Auth : Nat → Command D → σ → Option GoError × σ
  Deal : Nat → Command D → σ → (Event D × Option (CommandResult D)) × σ
  Store : Nat → Event D → σ → StoreResult D × σ
  Set : CommandResult D → StoreResult D → CommandResult D

/-- How a call ends: it returns a value, or the goroutine panics. -/
inductive Outcome (α : Type) where
  | ret (v : α)
  | panic (msg : String)
  deriving DecidableEq

/-- The runtime panic on a method call through a nil interface or a field
read through a nil pointer. -/
def nilDeref : String := "invalid memory address or nil pointer dereference"

/-- What one `Push` leaves behind: how it ended, the calls it made in order,
the world after it and the router after it. -/
structure PushResult (σ D : Type) where
  out : Outcome (CommandResult D)
  calls : List (Call D)
  world : σ
  router : CommandRouter

/-- What a registration or configuration call leaves behind: the router after
it, the lock operations it made and the panic value, if it panicked. -/
structure OpResult where
  router : CommandRouter
  locks : List LockOp
  panicked : Option String

/-! ## Operations -/

/-- `NewCommandRouter` (router.go lines 23 to 29). -/
def NewCommandRouter (es : Iface) : CommandRouter :=
  { cmdHandlers := GoMap.empty, taskMap := GoMap.empty, es := es,
    auth := Iface.nil, authcmd := false }

/-- `Push`, lines 56 to 66: the authorization gate.  Gives the calls made, the
world after them, and the outcome when `Push` ends here (`none`: go on). -/
def pushAuthorize {σ D : Type} [Inhabited D] (env : Env σ D) (r : CommandRouter)
    (cmd : Command D) (w : σ) :
    List (Call D) × σ × Option (Outcome (CommandResult D)) :=
  if r.authcmd then
    match r.auth with
    | Iface.nil => ([], w, some (Outcome.panic nilDeref))
    | Iface.ref a =>
      match env.Auth a cmd w with
      | (some _, w1) => ([Call.auth a cmd], w1, some (Outcome.ret (errResult AuthFailed)))
      | (none, w1) => ([Call.auth a cmd], w1, none)
  else ([], w, none)

/-- `Push`, lines 68 to 86: handle, persist and merge, for the handler `h`
found by the lookup. -/
def pushHandle {σ D : Type} (env : Env σ D) (r : CommandRouter) (h : Iface)
    (cmd : Command D) (w : σ) : List (Call D) × σ × Outcome (CommandResult D) :=
  match h with
  | Iface.nil => ([], w, Outcome.panic nilDeref)
  | Iface.ref hid =>
    match env.Deal hid cmd w with
    | ((_, none), w1) => ([Call.deal hid cmd], w1, Outcome.panic nilDeref)
    | ((event, some result), w1) =>
      if result.Error then ([Call.deal hid cmd], w1, Outcome.ret result)
      else
        match r.es with
        | Iface.nil => ([Call.deal hid cmd], w1, Outcome.panic nilDeref)
        | Iface.ref s =>
          match env.Store s event w1 with
          | (sres, w2) =>
            let result1 : CommandResult D :=
              match sres.Error with
              | some e =>
                { result with Err := some FailedStoreEvent, Error := true, ErrMsg := e.Error }
              | none => result
            ([Call.deal hid cmd, Call.store s event, Call.set result1 sres], w2,
              Outcome.ret (env.Set result1 sres))

/-- `Push` (router.go lines 32 to 86). -/
def Push {σ D : Type} [Inhabited D] (env : Env σ D) (r : CommandRouter)
    (cmd : Command D) (w : σ) : PushResult σ D :=
  match env.Validate cmd with
  | some _ =>
    { out := Outcome.ret (errResult InvalidCommand), calls := [Call.validate cmd],
      world := w, router := r }
  | none =>
    match r.cmdHandlers cmd.Name with
    | none =>
      { out := Outcome.ret (errResult InvalidCommand),
        calls := [Call.validate cmd, Call.lockOp LockOp.rlock, Call.lockOp LockOp.runlock],
        world := w, router := r }
    | some h =>
      match pushAuthorize env r cmd w with
      | (ac, w1, some early) =>
        { out := early,
          calls := [Call.validate cmd, Call.lockOp LockOp.rlock,
            Call.lockOp LockOp.runlock] ++ ac,
          world := w1, router := r }
      | (ac, w1, none) =>
        match pushHandle env r h cmd w1 with
        | (hc, w2, out) =>
          { out := out,
            calls := [Call.validate cmd, Call.lockOp LockOp.rlock,
              Call.lockOp LockOp.runlock] ++ ac ++ hc,
            world := w2, router := r }

/-- `AddCommandHandler` (router.go lines 89 to 96): the loop assigns
`r.cmdHandlers[k] = h` for the keys in order. -/
def AddCommandHandler (r : CommandRouter) (h : Iface) (keys : List String) : OpResult :=
  { router := { r with cmdHandlers := keys.foldl (fun m k => GoMap.set m k h) r.cmdHandlers },
    locks := [LockOp.lock, LockOp.unlock], panicked := none }

/-- `AddTaskHandler` (router.go lines 99 to 106). -/
def AddTaskHandler (r : CommandRouter) (h : Iface) (keys : List String) : OpResult :=
  { router := { r with taskMap := keys.foldl (fun m k => GoMap.set m k h) r.taskMap },
    locks := [LockOp.lock, LockOp.unlock], panicked := none }

/-- `SetAuth` (router.go lines 108 to 118).  The deferred `Unlock` runs on
both paths. -/
def SetAuth (r : CommandRouter) (auth : Iface) : OpResult :=
  if !r.authcmd then
    { router := { r with auth := auth, authcmd := true },
      locks := [LockOp.lock, LockOp.unlock], panicked := none }
  else
    { router := r, locks := [LockOp.lock, LockOp.unlock],
      panicked := some "auth already set" }

/-- The merge `Set` leaves the three error fields of the result as they are:
it only attaches the persistence payload. -/
def SetKeepsErrorFields {σ D : Type} (env : Env σ D) : Prop :=
  ∀ (res : CommandResult D) (sres : StoreResult D),
    (env.Set res sres).Err = res.Err ∧ (env.Set res sres).Error = res.Error
      ∧ (env.Set res sres).ErrMsg = res.ErrMsg

/-- Every result a handler's `Deal` produces has its flag consistent with its
kind: `Error` is set exactly when `Err` is not nil. -/
def DealConsistent {σ D : Type} (env : Env σ D) : Prop :=
  ∀ (hid : Nat) (cmd : Command D) (w w' : σ) (ev : Event D) (res : CommandResult D),
    env.Deal hid cmd w = ((ev, some res), w') → (res.Error = true ↔ res.Err ≠ none)

/-! ## Sequences of public operations -/

/-- One call of a public operation of the router, with its arguments. -/
inductive Op (D : Type) where
  | push (cmd : Command D)
  | addCommandHandler (h : Iface) (keys : List String)
  | addTaskHandler (h : Iface) (keys : List String)
  | setAuth (auth : Iface)

/-- The router and the world after one public operation.  A panic ends the
call, not the router: the state it left is the state the next call finds. -/
def Op.run {σ D : Type} [Inhabited D] (env : Env σ D) (op : Op D)
    (s : CommandRouter × σ) : CommandRouter × σ :=
  match op with
  | Op.push cmd => ((Push env s.1 cmd s.2).router, (Push env s.1 cmd s.2).world)
  | Op.addCommandHandler h keys => ((AddCommandHandler s.1 h keys).router, s.2)
  | Op.addTaskHandler h keys => ((AddTaskHandler s.1 h keys).router, s.2)
  | Op.setAuth auth => ((SetAuth s.1 auth).router, s.2)

/-- The router and the world after a sequence of public operations. -/
def runOps {σ D : Type} [Inhabited D] (env : Env σ D) (ops : List (Op D))
    (s : CommandRouter × σ) : CommandRouter × σ :=
  ops.foldl (fun s op => op.run env s) s

/-- The interface value an operation hands to the router for later calls is
not nil (a task handler is never called, so it may be anything). -/
def Op.argsNonNil {D : Type} : Op D → Bool
  | Op.push _ => true
  | Op.addCommandHandler h _ => decide (h ≠ Iface.nil)
  | Op.addTaskHandler _ _ => true
  | Op.setAuth auth => decide (auth ≠ Iface.nil)

/-- The router holds no nil interface value that `Push` would call through:
the store is not nil, no name maps to a nil handler, and when the gate is
enabled the authorizer is not nil. -/
def RouterNonNil (r : CommandRouter) : Prop :=
  r.es ≠ Iface.nil ∧ (∀ k, r.cmdHandlers k ≠ some Iface.nil)
    ∧ (r.authcmd = true → r.auth ≠ Iface.nil)

/-- Every handler's `Deal` returns a non-nil result pointer. -/
def DealNonNil {σ D : Type} (env : Env σ D) : Prop :=
  ∀ (hid : Nat) (cmd : Command D) (w : σ), (env.Deal hid cmd w).1.2 ≠ none

/-! ## The lock as explicit state -/

/-- The state of `r.lock`, a `sync.RWMutex`: the number of read locks held
and whether the write lock is held. -/
structure RWMutex where
  readers : Nat
  writer : Bool
  deriving DecidableEq

/-- The released lock. -/
def RWMutex.free : RWMutex := { readers := 0, writer := false }

/-- One lock operation on a lock state, for a caller that runs alone: `none`
when the operation cannot complete (it would block for ever, or it unlocks a
lock that is not held, which is a fatal error of the runtime). -/
def LockOp.step : LockOp → RWMutex → Option RWMutex
  | LockOp.rlock, m => if m.writer then none else some { m with readers := m.readers + 1 }
  | LockOp.runlock, m =>
    if m.readers = 0 then none else some { m with readers := m.readers - 1 }
  | LockOp.lock, m =>
    if m.writer || decide (m.readers ≠ 0) then none else some { m with writer := true }
  | LockOp.unlock, m => if m.writer then some { m with writer := false } else none

/-- The lock state after a sequence of lock operations. -/
def runLocks : List LockOp → RWMutex → Option RWMutex
  | [], m => some m
  | op :: ops, m =>
    match op.step m with
    | none => none
    | some m1 => runLocks ops m1

/-- The lock operations among recorded calls, in order. -/
def lockOps {D : Type} : List (Call D) → List LockOp
  | [] => []
  | Call.lockOp op :: cs => op :: lockOps cs
  | _ :: cs => lockOps cs

/-- The call is a call of a collaborator that `Push` makes after the lookup:
`Auth`, `Deal`, `Store` or `Set`. -/
def Call.isLate {D : Type} (c : Call D) : Bool :=
  c.isAuth || c.isDeal || c.isStore || c.isSet

/-- The place of a call in the pipeline of `Push`. -/
def Call.stage {D : Type} : Call D → Nat
  | Call.validate _ => 0
  | Call.lockOp LockOp.rlock => 1
  | Call.lockOp LockOp.runlock => 2
  | Call.lockOp LockOp.lock => 1
  | Call.lockOp LockOp.unlock => 2
  | Call.auth _ _ => 3
  | Call.deal _ _ => 4
  | Call.store _ _ => 5
  | Call.set _ _ => 6

/-! ## A concrete deployment, on which the operations can be run -/

/-- Collaborators over a world that counts the stored events.  A command is
valid when its name is not empty; the authorizer admits payloads below 100;
handler 1 accepts, handler 2 flags an error without naming a kind, handler 3
names a kind without flagging, any other handler returns a nil result; store 1
assigns the next sequence number, any other store fails. -/
def demoEnv : Env Nat Nat where
  Validate := fun cmd => if cmd.Name = "" then some (GoError.other "empty name") else none
  Auth := fun _ cmd w =>
    if cmd.Payload < 100 then (none, w) else (some (GoError.other "forbidden"), w)
  Deal := fun h cmd w =>
    if h = 1 then ((⟨cmd.Payload⟩, some ⟨none, false, "", 0⟩), w)
    else if h = 2 then ((⟨cmd.Payload⟩, some ⟨none, true, "", 7⟩), w)
    else if h = 3 then ((⟨cmd.Payload⟩, some ⟨some (GoError.other "late"), false, "", 0⟩), w)
    else ((⟨cmd.Payload⟩, none), w)
  Store := fun s _ w =>
    if s = 1 then (⟨none, w⟩, w + 1) else (⟨some (GoError.other "disk full"), w⟩, w)
  Set := fun res sres => { res with Payload := sres.Info }

/-- A router with store 1, handlers 1, 2 and 3 under the names of `AddCommandHandler`
calls, and no authorizer. -/
def demoRouter : CommandRouter :=
  (AddCommandHandler
    (AddCommandHandler
      (AddCommandHandler (NewCommandRouter (Iface.ref 1)) (Iface.ref 1) ["a", "b"]).router
      (Iface.ref 2) ["bad"]).router
    (Iface.ref 3) ["late"]).router

/-- The router `demoRouter` with authorizer 1 installed. -/
def demoGated : CommandRouter := (SetAuth demoRouter (Iface.ref 1)).router

/-- The collaborators of `demoEnv`, with handlers whose results are always
consistent: handler 1 accepts, every other handler rejects with kind and flag. -/
def tidyEnv : Env Nat Nat :=
  { demoEnv with
    Deal := fun h cmd w =>
      if h = 1 then ((⟨cmd.Payload⟩, some ⟨none, false, "", 0⟩), w)
      else ((⟨cmd.Payload⟩, some ⟨some (GoError.other "rejected"), true, "rejected", 0⟩), w) }

/-- The router `demoGated` with a failing store in place of store 1. -/
def demoFailing : CommandRouter := { demoGated with es := Iface.ref 2 }

/-! ## Theorems -/

/-- The gate of `Push` only ever calls `Auth`. -/
theorem pushAuthorize_calls {σ D : Type} [Inhabited D] (env : Env σ D) (r : CommandRouter)
    (cmd : Command D) (w : σ) :
    ∀ c ∈ (pushAuthorize env r cmd w).1, c.isAuth = true := by
  unfold pushAuthorize
  split
  · split
    · simp
    · split <;> simp [Call.isAuth]
  · simp

/-- An `Auth` call is none of `Deal`, `Store` and `Set`. -/
theorem Call.isAuth_only {D : Type} (c : Call D) (h : c.isAuth = true) :
    c.isDeal = false ∧ c.isStore = false ∧ c.isSet = false := by
  cases c <;> simp_all [Call.isAuth, Call.isDeal, Call.isStore, Call.isSet]

/-- C1: for every router state and every command whose `Validate` returns an
error, `Push` returns the result with `Error = true`, `Err = InvalidCommand`
and `ErrMsg` the text of `InvalidCommand`; the only call it makes is
`Validate`, so no `Auth`, no `Deal` and no `Store` is invoked. -/
theorem Push_invalid_command {σ D : Type} [Inhabited D] (env : Env σ D)
    (r : CommandRouter) (cmd : Command D) (w : σ) (e : GoError)
    (hv : env.Validate cmd = some e) :
    (Push env r cmd w).out = Outcome.ret
        { Err := some InvalidCommand, Error := true,
          ErrMsg := "Invalid Command, or no handler set", Payload := default }
      ∧ (Push env r cmd w).calls = [Call.validate cmd]
      ∧ (∀ c ∈ (Push env r cmd w).calls,
          c.isAuth = false ∧ c.isDeal = false ∧ c.isStore = false)
      ∧ (Push env r cmd w).world = w := by
  simp [Push, hv, errResult, InvalidCommand, GoError.Error, Call.isAuth, Call.isDeal,
    Call.isStore]

/-- Witness of C1 on the demo deployment: a command with an empty name, pushed
on a router that has a handler, an authorizer and a store. -/
theorem Push_invalid_command_witness :
    (Push demoEnv demoGated ⟨"", 5⟩ 0).out = Outcome.ret
        { Err := some InvalidCommand, Error := true,
          ErrMsg := "Invalid Command, or no handler set", Payload := default }
      ∧ (Push demoEnv demoGated ⟨"", 5⟩ 0).calls = [Call.validate ⟨"", 5⟩]
      ∧ (∀ c ∈ (Push demoEnv demoGated ⟨"", 5⟩ 0).calls,
          c.isAuth = false ∧ c.isDeal = false ∧ c.isStore = false)
      ∧ (Push demoEnv demoGated ⟨"", 5⟩ 0).world = 0 :=
  Push_invalid_command demoEnv demoGated ⟨"", 5⟩ 0 (GoError.other "empty name") (by decide)

/-- C2: for every router state and every command that passes `Validate` but
whose name is not a key of the command handler table, `Push` returns the
result it returns for a command that fails validation (`Error = true`,
`Err = InvalidCommand`, `ErrMsg` the text of `InvalidCommand`, every other
field zero), and calls none of `Auth`, `Deal` and `Store`: besides `Validate`
it only takes and releases the read lock. -/
theorem Push_no_handler {σ D : Type} [Inhabited D] (env : Env σ D)
    (r : CommandRouter) (cmd : Command D) (w : σ)
    (hv : env.Validate cmd = none) (hl : r.cmdHandlers cmd.Name = none) :
    (Push env r cmd w).out = Outcome.ret
        { Err := some InvalidCommand, Error := true,
          ErrMsg := "Invalid Command, or no handler set", Payload := default }
      ∧ (∀ (r' : CommandRouter) (cmd' : Command D) (w' : σ),
          env.Validate cmd' ≠ none → (Push env r cmd w).out = (Push env r' cmd' w').out)
      ∧ (Push env r cmd w).calls =
          [Call.validate cmd, Call.lockOp LockOp.rlock, Call.lockOp LockOp.runlock]
      ∧ (∀ c ∈ (Push env r cmd w).calls,
          c.isAuth = false ∧ c.isDeal = false ∧ c.isStore = false)
      ∧ (Push env r cmd w).world = w := by
  refine ⟨?_, ?_, ?_, ?_, ?_⟩
  · simp [Push, hv, hl, errResult, InvalidCommand, GoError.Error]
  · intro r' cmd' w' hne
    cases hv' : env.Validate cmd' with
    | none => exact absurd hv' hne
    | some e => simp [Push, hv, hl, hv']
  · simp [Push, hv, hl]
  · simp [Push, hv, hl, Call.isAuth, Call.isDeal, Call.isStore]
  · simp [Push, hv, hl]

/-- Witness of C2 on the demo deployment: the name `zzz` has no handler. -/
theorem Push_no_handler_witness :
    (Push demoEnv demoGated ⟨"zzz", 5⟩ 0).out = Outcome.ret
        { Err := some InvalidCommand, Error := true,
          ErrMsg := "Invalid Command, or no handler set", Payload := default }
      ∧ (∀ (r' : CommandRouter) (cmd' : Command Nat) (w' : Nat),
          demoEnv.Validate cmd' ≠ none →
            (Push demoEnv demoGated ⟨"zzz", 5⟩ 0).out = (Push demoEnv r' cmd' w').out)
      ∧ (Push demoEnv demoGated ⟨"zzz", 5⟩ 0).calls =
          [Call.validate ⟨"zzz", 5⟩, Call.lockOp LockOp.rlock, Call.lockOp LockOp.runlock]
      ∧ (∀ c ∈ (Push demoEnv demoGated ⟨"zzz", 5⟩ 0).calls,
          c.isAuth = false ∧ c.isDeal = false ∧ c.isStore = false)
      ∧ (Push demoEnv demoGated ⟨"zzz", 5⟩ 0).world = 0 :=
  Push_no_handler demoEnv demoGated ⟨"zzz", 5⟩ 0 (by decide) (by decide)

/-- C3: on a router with the gate enabled, for a command that passes
`Validate` and has a registered handler, when the authorizer's `Auth` returns
an error `Push` returns the result with `Error = true`, `Err = AuthFailed` and
`ErrMsg` the text of `AuthFailed`; the calls are `Validate`, the lookup under
the read lock and that one `Auth`, so neither `Deal` nor `Store` is invoked. -/
theorem Push_auth_failed {σ D : Type} [Inhabited D] (env : Env σ D)
    (r : CommandRouter) (cmd : Command D) (w w1 : σ) (h : Iface) (a : Nat) (e : GoError)
    (hv : env.Validate cmd = none) (hl : r.cmdHandlers cmd.Name = some h)
    (hg : r.authcmd = true) (ha : r.auth = Iface.ref a)
    (hr : env.Auth a cmd w = (some e, w1)) :
    (Push env r cmd w).out = Outcome.ret
        { Err := some AuthFailed, Error := true, ErrMsg := "Not authorized",
          Payload := default }
      ∧ (Push env r cmd w).calls =
          [Call.validate cmd, Call.lockOp LockOp.rlock, Call.lockOp LockOp.runlock,
            Call.auth a cmd]
      ∧ (∀ c ∈ (Push env r cmd w).calls, c.isDeal = false ∧ c.isStore = false)
      ∧ (Push env r cmd w).world = w1 := by
  simp [Push, hv, hl, pushAuthorize, hg, ha, hr, errResult, AuthFailed, GoError.Error,
    Call.isDeal, Call.isStore]

/-- Witness of C3 on the demo deployment: the authorizer rejects payload 100. -/
theorem Push_auth_failed_witness :
    (Push demoEnv demoGated ⟨"a", 100⟩ 0).out = Outcome.ret
        { Err := some AuthFailed, Error := true, ErrMsg := "Not authorized",
          Payload := default }
      ∧ (Push demoEnv demoGated ⟨"a", 100⟩ 0).calls =
          [Call.validate ⟨"a", 100⟩, Call.lockOp LockOp.rlock, Call.lockOp LockOp.runlock,
            Call.auth 1 ⟨"a", 100⟩]
      ∧ (∀ c ∈ (Push demoEnv demoGated ⟨"a", 100⟩ 0).calls,
          c.isDeal = false ∧ c.isStore = false)
      ∧ (Push demoEnv demoGated ⟨"a", 100⟩ 0).world = 0 :=
  Push_auth_failed demoEnv demoGated ⟨"a", 100⟩ 0 0 (Iface.ref 1) 1 (GoError.other "forbidden")
    (by decide) (by decide) (by decide) (by decide) (by decide)

/-- The calls of the gate contain no `Store` call. -/
theorem pushAuthorize_filter_isStore {σ D : Type} [Inhabited D] (env : Env σ D)
    (r : CommandRouter) (cmd : Command D) (w : σ) :
    (pushAuthorize env r cmd w).1.filter Call.isStore = [] := by
  rw [List.filter_eq_nil_iff]
  intro c hc
  have h := (Call.isAuth_only c (pushAuthorize_calls env r cmd w c hc)).2.1
  simp [h]

/-- The calls of the gate contain no `Set` call. -/
theorem pushAuthorize_filter_isSet {σ D : Type} [Inhabited D] (env : Env σ D)
    (r : CommandRouter) (cmd : Command D) (w : σ) :
    (pushAuthorize env r cmd w).1.filter Call.isSet = [] := by
  rw [List.filter_eq_nil_iff]
  intro c hc
  have h := (Call.isAuth_only c (pushAuthorize_calls env r cmd w c hc)).2.2
  simp [h]

/-- C4: for a command that passes validation, lookup and (when the gate is
enabled) authorization, when the result produced by the handler's `Deal` has
its `Error` flag set, `Push` returns exactly that result; `Deal` is the last
call, so neither `Store` nor `Set` is called. -/
theorem Push_handler_error {σ D : Type} [Inhabited D] (env : Env σ D)
    (r : CommandRouter) (cmd : Command D) (w w1 w2 : σ) (hid : Nat)
    (ac : List (Call D)) (ev : Event D) (res : CommandResult D)
    (hv : env.Validate cmd = none) (hl : r.cmdHandlers cmd.Name = some (Iface.ref hid))
    (hauth : pushAuthorize env r cmd w = (ac, w1, none))
    (hd : env.Deal hid cmd w1 = ((ev, some res), w2)) (he : res.Error = true) :
    (Push env r cmd w).out = Outcome.ret res
      ∧ (Push env r cmd w).calls =
          [Call.validate cmd, Call.lockOp LockOp.rlock, Call.lockOp LockOp.runlock]
            ++ ac ++ [Call.deal hid cmd]
      ∧ (∀ c ∈ (Push env r cmd w).calls, c.isStore = false ∧ c.isSet = false)
      ∧ (Push env r cmd w).world = w2 := by
  have hac : ∀ c ∈ ac, c.isAuth = true := by
    have h := pushAuthorize_calls env r cmd w
    rw [hauth] at h
    exact h
  have hcalls : (Push env r cmd w).calls =
      [Call.validate cmd, Call.lockOp LockOp.rlock, Call.lockOp LockOp.runlock]
        ++ ac ++ [Call.deal hid cmd] := by
    simp [Push, hv, hl, hauth, pushHandle, hd, he]
  refine ⟨?_, hcalls, ?_, ?_⟩
  · simp [Push, hv, hl, hauth, pushHandle, hd, he]
  · intro c hc
    rw [hcalls] at hc
    simp only [List.mem_append, List.mem_cons, List.mem_singleton, List.not_mem_nil,
      or_false] at hc
    rcases hc with ((hc | hc | hc) | hc) | hc
    · subst hc; simp [Call.isStore, Call.isSet]
    · subst hc; simp [Call.isStore, Call.isSet]
    · subst hc; simp [Call.isStore, Call.isSet]
    · exact (Call.isAuth_only c (hac c hc)).2
    · subst hc; simp [Call.isStore, Call.isSet]
  · simp [Push, hv, hl, hauth, pushHandle, hd, he]

/-- Witness of C4 on the demo deployment: handler 2, registered as `bad`,
flags an error; the gate is enabled and passes. -/
theorem Push_handler_error_witness :
    (Push demoEnv demoGated ⟨"bad", 5⟩ 0).out = Outcome.ret ⟨none, true, "", 7⟩
      ∧ (Push demoEnv demoGated ⟨"bad", 5⟩ 0).calls =
          [Call.validate ⟨"bad", 5⟩, Call.lockOp LockOp.rlock, Call.lockOp LockOp.runlock]
            ++ [Call.auth 1 ⟨"bad", 5⟩] ++ [Call.deal 2 ⟨"bad", 5⟩]
      ∧ (∀ c ∈ (Push demoEnv demoGated ⟨"bad", 5⟩ 0).calls,
          c.isStore = false ∧ c.isSet = false)
      ∧ (Push demoEnv demoGated ⟨"bad", 5⟩ 0).world = 0 :=
  Push_handler_error demoEnv demoGated ⟨"bad", 5⟩ 0 0 0 2 [Call.auth 1 ⟨"bad", 5⟩] ⟨5⟩
    ⟨none, true, "", 7⟩ (by decide) (by decide) (by decide) (by decide) (by decide)

/-- C5: for a command that reaches persistence (valid, handler registered,
authorized when the gate is enabled, handler result without error), when the
`StoreResult` returned by `Store` carries the error `e`, `Push` writes
`Error = true`, `Err = FailedStoreEvent` and `ErrMsg = e.Error()` into the
handler's result and then applies `Set` with that `StoreResult`: the returned
result is `Set` of the amended result, and with a `Set` that leaves the error
fields alone it has `Error = true`, `Err = FailedStoreEvent` and the store's
own text as `ErrMsg`. -/
theorem Push_store_error {σ D : Type} [Inhabited D] (env : Env σ D)
    (r : CommandRouter) (cmd : Command D) (w w1 w2 w3 : σ) (hid s : Nat)
    (ac : List (Call D)) (ev : Event D) (res : CommandResult D) (sres : StoreResult D)
    (e : GoError)
    (hv : env.Validate cmd = none) (hl : r.cmdHandlers cmd.Name = some (Iface.ref hid))
    (hauth : pushAuthorize env r cmd w = (ac, w1, none))
    (hd : env.Deal hid cmd w1 = ((ev, some res), w2)) (he : res.Error = false)
    (hes : r.es = Iface.ref s) (hs : env.Store s ev w2 = (sres, w3))
    (herr : sres.Error = some e) (hset : SetKeepsErrorFields env) :
    (Push env r cmd w).out = Outcome.ret
        (env.Set { res with Err := some FailedStoreEvent, Error := true, ErrMsg := e.Error }
          sres)
      ∧ (∃ res', (Push env r cmd w).out = Outcome.ret res' ∧ res'.Error = true
          ∧ res'.Err = some FailedStoreEvent ∧ res'.ErrMsg = e.Error)
      ∧ Call.set { res with Err := some FailedStoreEvent, Error := true, ErrMsg := e.Error }
          sres ∈ (Push env r cmd w).calls := by
  have hout : (Push env r cmd w).out = Outcome.ret
      (env.Set { res with Err := some FailedStoreEvent, Error := true, ErrMsg := e.Error }
        sres) := by
    simp [Push, hv, hl, hauth, pushHandle, hd, he, hes, hs, herr]
  refine ⟨hout, ⟨_, hout, ?_⟩, ?_⟩
  · obtain ⟨h1, h2, h3⟩ := hset
      { res with Err := some FailedStoreEvent, Error := true, ErrMsg := e.Error } sres
    exact ⟨h2, h1, h3⟩
  · simp [Push, hv, hl, hauth, pushHandle, hd, he, hes, hs, herr]

/-- The merge of the demo deployment leaves the error fields alone. -/
theorem demoEnv_setKeepsErrorFields : SetKeepsErrorFields demoEnv := by
  intro res sres
  exact ⟨rfl, rfl, rfl⟩

/-- Witness of C5 on the demo deployment: store 2 fails with `disk full`, and
the sequence number 0 of the attempt is still attached. -/
theorem Push_store_error_witness :
    (Push demoEnv demoFailing ⟨"a", 5⟩ 0).out = Outcome.ret
        (demoEnv.Set
          { (⟨none, false, "", 0⟩ : CommandResult Nat) with
            Err := some FailedStoreEvent, Error := true,
            ErrMsg := (GoError.other "disk full").Error }
          ⟨some (GoError.other "disk full"), 0⟩)
      ∧ (∃ res', (Push demoEnv demoFailing ⟨"a", 5⟩ 0).out = Outcome.ret res'
          ∧ res'.Error = true ∧ res'.Err = some FailedStoreEvent
          ∧ res'.ErrMsg = (GoError.other "disk full").Error)
      ∧ Call.set
          { (⟨none, false, "", 0⟩ : CommandResult Nat) with
            Err := some FailedStoreEvent, Error := true,
            ErrMsg := (GoError.other "disk full").Error }
          ⟨some (GoError.other "disk full"), 0⟩ ∈ (Push demoEnv demoFailing ⟨"a", 5⟩ 0).calls :=
  Push_store_error demoEnv demoFailing ⟨"a", 5⟩ 0 0 0 0 1 2 [Call.auth 1 ⟨"a", 5⟩] ⟨5⟩
    ⟨none, false, "", 0⟩ ⟨some (GoError.other "disk full"), 0⟩ (GoError.other "disk full")
    (by decide) (by decide) (by decide) (by decide) (by decide) (by decide) (by decide)
    (by decide) demoEnv_setKeepsErrorFields

/-- C6: for a command that reaches persistence, `Push` calls `Store` exactly
once, with the event that `Deal` produced, and calls `Set` exactly once, with
the `StoreResult` that `Store` returned, whether or not it carries an error;
the returned result is what that `Set` call gives, and when the `StoreResult`
carries no error it is `Set` applied to the handler's result as `Deal`
returned it. -/
theorem Push_persist_merge {σ D : Type} [Inhabited D] (env : Env σ D)
    (r : CommandRouter) (cmd : Command D) (w w1 w2 w3 : σ) (hid s : Nat)
    (ac : List (Call D)) (ev : Event D) (res : CommandResult D) (sres : StoreResult D)
    (hv : env.Validate cmd = none) (hl : r.cmdHandlers cmd.Name = some (Iface.ref hid))
    (hauth : pushAuthorize env r cmd w = (ac, w1, none))
    (hd : env.Deal hid cmd w1 = ((ev, some res), w2)) (he : res.Error = false)
    (hes : r.es = Iface.ref s) (hs : env.Store s ev w2 = (sres, w3)) :
    (Push env r cmd w).calls.filter Call.isStore = [Call.store s ev]
      ∧ (∃ res1, (Push env r cmd w).calls.filter Call.isSet = [Call.set res1 sres]
          ∧ (Push env r cmd w).out = Outcome.ret (env.Set res1 sres)
          ∧ (Push env r cmd w).calls =
              [Call.validate cmd, Call.lockOp LockOp.rlock, Call.lockOp LockOp.runlock]
                ++ ac ++ [Call.deal hid cmd, Call.store s ev, Call.set res1 sres])
      ∧ (sres.Error = none → (Push env r cmd w).out = Outcome.ret (env.Set res sres))
      ∧ (Push env r cmd w).world = w3 := by
  have hst : ac.filter Call.isStore = [] := by
    have h := pushAuthorize_filter_isStore env r cmd w
    rw [hauth] at h
    exact h
  have hse : ac.filter Call.isSet = [] := by
    have h := pushAuthorize_filter_isSet env r cmd w
    rw [hauth] at h
    exact h
  refine ⟨?_, ?_, ?_, ?_⟩
  · simp [Push, hv, hl, hauth, pushHandle, hd, he, hes, hs, List.filter_cons, hst,
      Call.isStore]
  · cases hse' : sres.Error with
    | none =>
      refine ⟨res, ?_, ?_, ?_⟩
      · simp [Push, hv, hl, hauth, pushHandle, hd, he, hes, hs, hse', List.filter_cons,
          hse, Call.isSet]
      · simp [Push, hv, hl, hauth, pushHandle, hd, he, hes, hs, hse']
      · simp [Push, hv, hl, hauth, pushHandle, hd, he, hes, hs, hse']
    | some e =>
      refine ⟨{ res with Err := some FailedStoreEvent, Error := true, ErrMsg := e.Error },
        ?_, ?_, ?_⟩
      · simp [Push, hv, hl, hauth, pushHandle, hd, he, hes, hs, hse', List.filter_cons,
          hse, Call.isSet]
      · simp [Push, hv, hl, hauth, pushHandle, hd, he, hes, hs, hse']
      · simp [Push, hv, hl, hauth, pushHandle, hd, he, hes, hs, hse']
  · intro hnone
    simp [Push, hv, hl, hauth, pushHandle, hd, he, hes, hs, hnone]
  · simp [Push, hv, hl, hauth, pushHandle, hd, he, hes, hs]

/-- Witness of C6 on the demo deployment: the first event stored by store 1
gets sequence number 0, which `Set` attaches to the result of handler 1. -/
theorem Push_persist_merge_witness :
    (Push demoEnv demoGated ⟨"a", 5⟩ 0).calls.filter Call.isStore = [Call.store 1 ⟨5⟩]
      ∧ (∃ res1, (Push demoEnv demoGated ⟨"a", 5⟩ 0).calls.filter Call.isSet
            = [Call.set res1 ⟨none, 0⟩]
          ∧ (Push demoEnv demoGated ⟨"a", 5⟩ 0).out = Outcome.ret (demoEnv.Set res1 ⟨none, 0⟩)
          ∧ (Push demoEnv demoGated ⟨"a", 5⟩ 0).calls =
              [Call.validate ⟨"a", 5⟩, Call.lockOp LockOp.rlock, Call.lockOp LockOp.runlock]
                ++ [Call.auth 1 ⟨"a", 5⟩]
                ++ [Call.deal 1 ⟨"a", 5⟩, Call.store 1 ⟨5⟩, Call.set res1 ⟨none, 0⟩])
      ∧ ((⟨none, 0⟩ : StoreResult Nat).Error = none →
          (Push demoEnv demoGated ⟨"a", 5⟩ 0).out
            = Outcome.ret (demoEnv.Set ⟨none, false, "", 0⟩ ⟨none, 0⟩))
      ∧ (Push demoEnv demoGated ⟨"a", 5⟩ 0).world = 1 :=
  Push_persist_merge demoEnv demoGated ⟨"a", 5⟩ 0 0 0 1 1 1 [Call.auth 1 ⟨"a", 5⟩] ⟨5⟩
    ⟨none, false, "", 0⟩ ⟨none, 0⟩
    (by decide) (by decide) (by decide) (by decide) (by decide) (by decide) (by decide)

/-- When the gate ends `Push` with a returned result, that result is the one
built for `AuthFailed`. -/
theorem pushAuthorize_ret {σ D : Type} [Inhabited D] (env : Env σ D) (r : CommandRouter)
    (cmd : Command D) (w w1 : σ) (ac : List (Call D)) (res : CommandResult D)
    (h : pushAuthorize env r cmd w = (ac, w1, some (Outcome.ret res))) :
    res = errResult AuthFailed := by
  unfold pushAuthorize at h
  split at h
  · split at h
    · simp at h
    · split at h
      · simp only [Prod.mk.injEq, Option.some.injEq, Outcome.ret.injEq] at h
        exact h.2.2.symm
      · simp at h
  · simp at h

/-- What `pushHandle` returns: the handler's own flagged result, or `Set` of
the handler's result, amended when the store failed; in both cases after a
`Deal` call. -/
theorem pushHandle_ret {σ D : Type} (env : Env σ D) (r : CommandRouter) (h : Iface)
    (cmd : Command D) (w w2 : σ) (hc : List (Call D)) (res : CommandResult D)
    (hp : pushHandle env r h cmd w = (hc, w2, Outcome.ret res)) :
    ∃ hid ev res0 w1, h = Iface.ref hid ∧ env.Deal hid cmd w = ((ev, some res0), w1)
      ∧ Call.deal hid cmd ∈ hc
      ∧ ((res0.Error = true ∧ res = res0)
        ∨ (res0.Error = false ∧ ∃ sres, (sres.Error = none ∧ res = env.Set res0 sres)
            ∨ (∃ e, sres.Error = some e ∧ res = env.Set
                { res0 with Err := some FailedStoreEvent, Error := true, ErrMsg := e.Error }
                sres))) := by
  unfold pushHandle at hp
  split at hp
  · simp at hp
  · rename_i hid
    split at hp
    · simp at hp
    · rename_i ev res0 w1 hd
      refine ⟨hid, ev, res0, w1, rfl, hd, ?_⟩
      split at hp
      · rename_i he
        simp only [Prod.mk.injEq, Outcome.ret.injEq] at hp
        obtain ⟨h1, _, h3⟩ := hp
        subst h1
        exact ⟨by simp, Or.inl ⟨he, h3.symm⟩⟩
      · rename_i he
        split at hp
        · simp at hp
        · split at hp
          rename_i sres w3 hs
          simp only [Prod.mk.injEq, Outcome.ret.injEq] at hp
          obtain ⟨h1, _, h3⟩ := hp
          subst h1
          refine ⟨by simp, Or.inr ⟨by simpa using he, sres, ?_⟩⟩
          cases hse : sres.Error with
          | none => left; simp [hse] at h3; exact ⟨rfl, h3.symm⟩
          | some e => right; simp [hse] at h3; exact ⟨e, rfl, h3.symm⟩

/-- Where a returned result of `Push` comes from: it is built by the core
for `InvalidCommand` or `AuthFailed` (and then no `Deal` call was made), or it
comes out of `pushHandle`, whose calls are among the calls of `Push`. -/
theorem Push_ret_cases {σ D : Type} [Inhabited D] (env : Env σ D) (r : CommandRouter)
    (cmd : Command D) (w : σ) (res : CommandResult D)
    (hout : (Push env r cmd w).out = Outcome.ret res) :
    res = errResult InvalidCommand ∨ res = errResult AuthFailed
      ∨ ∃ h w1 hc w2, pushHandle env r h cmd w1 = (hc, w2, Outcome.ret res)
          ∧ ∀ c ∈ hc, c ∈ (Push env r cmd w).calls := by
  unfold Push at hout ⊢
  split at hout
  · left
    simpa using hout.symm
  · split at hout
    · left
      simpa using hout.symm
    · rename_i h hl
      split at hout
      · rename_i ac w1 early hauth
        simp only at hout
        subst hout
        right; left
        exact pushAuthorize_ret env r cmd w w1 ac res hauth
      · rename_i ac w1 hauth
        split at hout
        rename_i hc w2 out hp
        simp only at hout
        subst hout
        right; right
        refine ⟨h, w1, hc, w2, hp, ?_⟩
        intro c hcm
        simp [hl, hauth, hp, hcm]

/-- C7, as amended: when every result a handler produces has its flag
consistent with its kind and `Set` leaves the error fields alone, every result
`Push` returns has `Error` set exactly when `Err` is not nil; and a result
`Push` returns without having called `Deal` (one the core built itself) has
`Error` set, `Err` not nil and a non-empty `ErrMsg`. -/
theorem Push_flag_consistent {σ D : Type} [Inhabited D] (env : Env σ D)
    (r : CommandRouter) (cmd : Command D) (w : σ) (res : CommandResult D)
    (hdeal : DealConsistent env) (hset : SetKeepsErrorFields env)
    (hout : (Push env r cmd w).out = Outcome.ret res) :
    (res.Error = true ↔ res.Err ≠ none)
      ∧ ((∀ c ∈ (Push env r cmd w).calls, c.isDeal = false) →
          res.Error = true ∧ res.Err ≠ none ∧ res.ErrMsg ≠ "") := by
  rcases Push_ret_cases env r cmd w res hout with h | h | ⟨h, w1, hc, w2, hp, hsub⟩
  · subst h
    simp [errResult, InvalidCommand, GoError.Error]
  · subst h
    simp [errResult, AuthFailed, GoError.Error]
  · obtain ⟨hid, ev, res0, w1', _, hd, hmem, hres⟩ := pushHandle_ret env r h cmd w1 w2 hc res hp
    have hcons := hdeal hid cmd w1 w1' ev res0 hd
    constructor
    · rcases hres with ⟨_, hr⟩ | ⟨he, sres, ⟨_, hr⟩ | ⟨e, _, hr⟩⟩
      · rw [hr]; exact hcons
      · obtain ⟨h1, h2, _⟩ := hset res0 sres
        rw [hr, h1, h2]; exact hcons
      · obtain ⟨h1, h2, _⟩ := hset
          { res0 with Err := some FailedStoreEvent, Error := true, ErrMsg := e.Error } sres
        rw [hr, h1, h2]; simp
    · intro hno
      have := hno _ (hsub _ hmem)
      simp [Call.isDeal] at this

/-- Witness of C7 as amended, on the consistent handlers of `tidyEnv`: the
command `bad` is rejected by handler 2 with kind and flag, and `Push` returns
that result. -/
theorem Push_flag_consistent_witness :
    ((⟨some (GoError.other "rejected"), true, "rejected", 0⟩ : CommandResult Nat).Error = true
        ↔ (⟨some (GoError.other "rejected"), true, "rejected", 0⟩ : CommandResult Nat).Err
            ≠ none)
      ∧ ((∀ c ∈ (Push tidyEnv demoGated ⟨"bad", 5⟩ 0).calls, c.isDeal = false) →
          (⟨some (GoError.other "rejected"), true, "rejected", 0⟩ : CommandResult Nat).Error
              = true
            ∧ (⟨some (GoError.other "rejected"), true, "rejected", 0⟩ : CommandResult Nat).Err
              ≠ none
            ∧ (⟨some (GoError.other "rejected"), true, "rejected", 0⟩ : CommandResult Nat).ErrMsg
              ≠ "") :=
  Push_flag_consistent tidyEnv demoGated ⟨"bad", 5⟩ 0
    ⟨some (GoError.other "rejected"), true, "rejected", 0⟩
    (by
      intro hid cmd w w' ev res h
      simp only [tidyEnv] at h
      split at h
      · simp only [Prod.mk.injEq, Option.some.injEq] at h
        rw [← h.1.2]; simp
      · simp only [Prod.mk.injEq, Option.some.injEq] at h
        rw [← h.1.2]; simp)
    (by intro res sres; exact ⟨rfl, rfl, rfl⟩)
    (by decide)

/-- Counterexample to C7 as stated: handler 2 of the demo deployment returns a
result with `Error = true` and `Err = nil`, and `Push` returns it unchanged;
handler 3 returns `Error = false` with `Err` not nil, the store succeeds, and
`Push` returns a result with `Error = false` and `Err` not nil. -/
theorem Push_flag_consistent_counterexample :
    (Push demoEnv demoGated ⟨"bad", 5⟩ 0).out = Outcome.ret ⟨none, true, "", 7⟩
      ∧ ¬ ((⟨none, true, "", 7⟩ : CommandResult Nat).Error = true
            ↔ (⟨none, true, "", 7⟩ : CommandResult Nat).Err ≠ none)
      ∧ (Push demoEnv demoGated ⟨"late", 5⟩ 0).out
          = Outcome.ret ⟨some (GoError.other "late"), false, "", 0⟩
      ∧ ¬ ((⟨some (GoError.other "late"), false, "", 0⟩ : CommandResult Nat).Error = true
            ↔ (⟨some (GoError.other "late"), false, "", 0⟩ : CommandResult Nat).Err ≠ none) := by
  refine ⟨by decide, by simp, by decide, by simp⟩

/-- The registration loop: after it, a key of the list maps to the handler
and every other key maps to what it mapped to before. -/
theorem foldl_set_apply (h : Iface) (ks : List String) (m : GoMap) (k : String) :
    (ks.foldl (fun m k => GoMap.set m k h) m) k = if k ∈ ks then some h else m k := by
  induction ks generalizing m with
  | nil => simp
  | cons x xs ih =>
    rw [List.foldl_cons, ih]
    by_cases hx : k ∈ xs
    · simp [hx]
    · by_cases hk : k = x
      · simp [hx, hk, GoMap.set]
      · simp [hx, hk, GoMap.set]

/-- A non-nil handler that `pushHandle` is given is called. -/
theorem pushHandle_deal_mem {σ D : Type} (env : Env σ D) (r : CommandRouter) (hid : Nat)
    (cmd : Command D) (w : σ) :
    Call.deal hid cmd ∈ (pushHandle env r (Iface.ref hid) cmd w).1 := by
  unfold pushHandle
  simp only
  split
  · simp
  · split
    · simp
    · split
      · simp
      · simp

/-- C8: for every handler `h`, every key list `ks` and every key `k` in `ks`,
after `AddCommandHandler(h, ks...)` the command handler lookup of `k` finds
`h`, so that `Push` of a valid command named `k` that passes the gate calls
the `Deal` of `h`; after `AddTaskHandler(t, ks...)` the task table maps `k` to
`t`; and registering under `a` and `b` makes both names resolve to the same
handler. -/
theorem AddCommandHandler_lookup {σ D : Type} [Inhabited D] (r : CommandRouter)
    (h t : Iface) (ks : List String) (k : String) (hk : k ∈ ks) :
    (AddCommandHandler r h ks).router.cmdHandlers k = some h
      ∧ (AddTaskHandler r t ks).router.taskMap k = some t
      ∧ ((AddCommandHandler r h ["a", "b"]).router.cmdHandlers "a" = some h
          ∧ (AddCommandHandler r h ["a", "b"]).router.cmdHandlers "b" = some h)
      ∧ (∀ (env : Env σ D) (cmd : Command D) (w w1 : σ) (ac : List (Call D)) (hid : Nat),
          h = Iface.ref hid → cmd.Name = k → env.Validate cmd = none →
          pushAuthorize env (AddCommandHandler r h ks).router cmd w = (ac, w1, none) →
          Call.deal hid cmd ∈ (Push env (AddCommandHandler r h ks).router cmd w).calls) := by
  have hlook : (AddCommandHandler r h ks).router.cmdHandlers k = some h := by
    simp [AddCommandHandler, foldl_set_apply, hk]
  refine ⟨hlook, ?_, ⟨?_, ?_⟩, ?_⟩
  · simp [AddTaskHandler, foldl_set_apply, hk]
  · simp [AddCommandHandler, GoMap.set]
  · simp [AddCommandHandler, GoMap.set]
  · intro env cmd w w1 ac hid hh hn hv hauth
    subst hn
    have hm := pushHandle_deal_mem env (AddCommandHandler r h ks).router hid cmd w1
    rw [hh] at hlook hauth
    rw [hh]
    unfold Push
    simp only [hv, hlook, hauth]
    simp only [List.mem_append]
    right
    exact hm

/-- Witness of C8 on the demo deployment: handler 1 and task handler 9 are
registered under the keys `x`, `y`, `x`, and a command named `y` reaches the
`Deal` of handler 1. -/
theorem AddCommandHandler_lookup_witness :
    (AddCommandHandler demoRouter (Iface.ref 1) ["x", "y", "x"]).router.cmdHandlers "y"
        = some (Iface.ref 1)
      ∧ (AddTaskHandler demoRouter (Iface.ref 9) ["x", "y", "x"]).router.taskMap "y"
        = some (Iface.ref 9)
      ∧ ((AddCommandHandler demoRouter (Iface.ref 1) ["a", "b"]).router.cmdHandlers "a"
            = some (Iface.ref 1)
          ∧ (AddCommandHandler demoRouter (Iface.ref 1) ["a", "b"]).router.cmdHandlers "b"
            = some (Iface.ref 1))
      ∧ (∀ (env : Env Nat Nat) (cmd : Command Nat) (w w1 : Nat) (ac : List (Call Nat))
            (hid : Nat),
          Iface.ref 1 = Iface.ref hid → cmd.Name = "y" → env.Validate cmd = none →
          pushAuthorize env (AddCommandHandler demoRouter (Iface.ref 1) ["x", "y", "x"]).router
            cmd w = (ac, w1, none) →
          Call.deal hid cmd ∈
            (Push env (AddCommandHandler demoRouter (Iface.ref 1) ["x", "y", "x"]).router
              cmd w).calls) :=
  AddCommandHandler_lookup demoRouter (Iface.ref 1) (Iface.ref 9) ["x", "y", "x"] "y"
    (by decide)

/-- C9: after `AddCommandHandler(h1, ks1...)` followed by
`AddCommandHandler(h2, ks2...)`, a key `k` of `ks2` (however often it occurs in
`ks1` and `ks2`) is looked up to `h2` and to nothing else: the last
registration wins; and in every router state a name is looked up to at most
one handler. -/
theorem AddCommandHandler_last_wins (r : CommandRouter) (h1 h2 : Iface)
    (ks1 ks2 : List String) (k : String) (hk : k ∈ ks2) :
    (AddCommandHandler (AddCommandHandler r h1 ks1).router h2 ks2).router.cmdHandlers k
        = some h2
      ∧ (∀ h, (AddCommandHandler (AddCommandHandler r h1 ks1).router h2 ks2).router.cmdHandlers
            k = some h → h = h2)
      ∧ (AddCommandHandler (AddCommandHandler r h1 [k]).router h2 [k]).router.cmdHandlers k
        = some h2
      ∧ (∀ (r' : CommandRouter) (n : String) (h h' : Iface),
          r'.cmdHandlers n = some h → r'.cmdHandlers n = some h' → h = h') := by
  have hlook :
      (AddCommandHandler (AddCommandHandler r h1 ks1).router h2 ks2).router.cmdHandlers k
        = some h2 := by
    simp only [AddCommandHandler]
    rw [foldl_set_apply]
    simp [hk]
  refine ⟨hlook, ?_, ?_, ?_⟩
  · intro h hh
    rw [hlook] at hh
    exact (Option.some.inj hh).symm
  · simp [AddCommandHandler, GoMap.set]
  · intro r' n h h' e1 e2
    rw [e1] at e2
    exact Option.some.inj e2

/-- Witness of C9 on the demo deployment: the name `a`, registered for handler
1, is registered again for handler 2 and then twice in one call for handler 3. -/
theorem AddCommandHandler_last_wins_witness :
    (AddCommandHandler (AddCommandHandler demoRouter (Iface.ref 2) ["a"]).router
        (Iface.ref 3) ["a", "c", "a"]).router.cmdHandlers "a" = some (Iface.ref 3)
      ∧ (∀ h, (AddCommandHandler (AddCommandHandler demoRouter (Iface.ref 2) ["a"]).router
            (Iface.ref 3) ["a", "c", "a"]).router.cmdHandlers "a" = some h → h = Iface.ref 3)
      ∧ (AddCommandHandler (AddCommandHandler demoRouter (Iface.ref 2) ["a"]).router
            (Iface.ref 3) ["a"]).router.cmdHandlers "a" = some (Iface.ref 3)
      ∧ (∀ (r' : CommandRouter) (n : String) (h h' : Iface),
          r'.cmdHandlers n = some h → r'.cmdHandlers n = some h' → h = h') :=
  AddCommandHandler_last_wins demoRouter (Iface.ref 2) (Iface.ref 3) ["a"] ["a", "c", "a"] "a"
    (by decide)

/-- C10: on a router whose gate is not enabled, `SetAuth(a)` installs `a`,
enables the gate and does not panic; on a router whose gate is enabled,
`SetAuth(b)` panics with `auth already set` for every `b` and leaves the
installed authorizer and the enabled flag (and the whole router) as they
were; so a second `SetAuth` after a first one always panics and the first
authorizer stays. -/
theorem SetAuth_once (r : CommandRouter) (a b : Iface) :
    (r.authcmd = false →
        (SetAuth r a).panicked = none ∧ (SetAuth r a).router.auth = a
          ∧ (SetAuth r a).router.authcmd = true
          ∧ (SetAuth (SetAuth r a).router b).panicked = some "auth already set"
          ∧ (SetAuth (SetAuth r a).router b).router.auth = a
          ∧ (SetAuth (SetAuth r a).router b).router.authcmd = true)
      ∧ (r.authcmd = true →
        (SetAuth r b).panicked = some "auth already set"
          ∧ (SetAuth r b).router.auth = r.auth ∧ (SetAuth r b).router.authcmd = true
          ∧ (SetAuth r b).router = r) := by
  constructor
  · intro h
    simp [SetAuth, h]
  · intro h
    simp [SetAuth, h]

/-- Witness of C10 on the demo deployment: the first `SetAuth` on `demoRouter`
installs authorizer 1, and `SetAuth` of authorizer 2 on `demoGated` panics. -/
theorem SetAuth_once_witness :
    ((SetAuth demoRouter (Iface.ref 1)).panicked = none
        ∧ (SetAuth demoRouter (Iface.ref 1)).router.auth = Iface.ref 1
        ∧ (SetAuth demoRouter (Iface.ref 1)).router.authcmd = true
        ∧ (SetAuth (SetAuth demoRouter (Iface.ref 1)).router (Iface.ref 2)).panicked
            = some "auth already set"
        ∧ (SetAuth (SetAuth demoRouter (Iface.ref 1)).router (Iface.ref 2)).router.auth
            = Iface.ref 1
        ∧ (SetAuth (SetAuth demoRouter (Iface.ref 1)).router (Iface.ref 2)).router.authcmd
            = true)
      ∧ ((SetAuth demoGated (Iface.ref 2)).panicked = some "auth already set"
        ∧ (SetAuth demoGated (Iface.ref 2)).router.auth = demoGated.auth
        ∧ (SetAuth demoGated (Iface.ref 2)).router.authcmd = true
        ∧ (SetAuth demoGated (Iface.ref 2)).router = demoGated) :=
  ⟨(SetAuth_once demoRouter (Iface.ref 1) (Iface.ref 2)).1 (by decide),
    (SetAuth_once demoGated (Iface.ref 1) (Iface.ref 2)).2 (by decide)⟩

/-- `Push` hands back the router it was given. -/
theorem Push_router_eq {σ D : Type} [Inhabited D] (env : Env σ D) (r : CommandRouter)
    (cmd : Command D) (w : σ) : (Push env r cmd w).router = r := by
  unfold Push
  split
  · rfl
  · split
    · rfl
    · split
      · rfl
      · rfl

/-- One public operation on a router with the gate enabled leaves the gate
enabled and the authorizer in place. -/
theorem Op.run_keeps_auth {σ D : Type} [Inhabited D] (env : Env σ D) (op : Op D)
    (s : CommandRouter × σ) (a : Iface) (h : s.1.authcmd = true ∧ s.1.auth = a) :
    (op.run env s).1.authcmd = true ∧ (op.run env s).1.auth = a := by
  cases op with
  | push cmd => simpa [Op.run, Push_router_eq] using h
  | addCommandHandler hd ks => simpa [Op.run, AddCommandHandler] using h
  | addTaskHandler hd ks => simpa [Op.run, AddTaskHandler] using h
  | setAuth b => simpa [Op.run, SetAuth, h.1] using h

/-- C11: once `SetAuth(a)` has succeeded on a router, after every later
sequence of public operations (`Push`, `AddCommandHandler`, `AddTaskHandler`,
`SetAuth`, with any arguments and any behaviour of the collaborators) the gate
is enabled and the authorizer is `a`. -/
theorem SetAuth_stays {σ D : Type} [Inhabited D] (env : Env σ D) (r : CommandRouter)
    (a : Iface) (ops : List (Op D)) (w : σ) (hok : (SetAuth r a).panicked = none) :
    (runOps env ops ((SetAuth r a).router, w)).1.authcmd = true
      ∧ (runOps env ops ((SetAuth r a).router, w)).1.auth = a := by
  have h0 : (SetAuth r a).router.authcmd = true ∧ (SetAuth r a).router.auth = a := by
    cases hg : r.authcmd with
    | false => simp [SetAuth, hg]
    | true => simp [SetAuth, hg] at hok
  have key : ∀ (l : List (Op D)) (s : CommandRouter × σ),
      (s.1.authcmd = true ∧ s.1.auth = a) →
      ((runOps env l s).1.authcmd = true ∧ (runOps env l s).1.auth = a) := by
    intro l
    induction l with
    | nil => intro s hs; simpa [runOps] using hs
    | cons op rest ih =>
      intro s hs
      have := ih (op.run env s) (Op.run_keeps_auth env op s a hs)
      simpa [runOps] using this
  exact key ops _ h0

/-- Witness of C11 on the demo deployment: after `SetAuth` of authorizer 1 on
`demoRouter`, a second `SetAuth`, a registration, a task registration and a
`Push` leave authorizer 1 installed and the gate enabled. -/
theorem SetAuth_stays_witness :
    (runOps demoEnv
        [Op.setAuth (Iface.ref 2), Op.addCommandHandler (Iface.ref 2) ["a"],
          Op.addTaskHandler Iface.nil ["t"], Op.push ⟨"a", 5⟩, Op.setAuth Iface.nil]
        ((SetAuth demoRouter (Iface.ref 1)).router, 0)).1.authcmd = true
      ∧ (runOps demoEnv
        [Op.setAuth (Iface.ref 2), Op.addCommandHandler (Iface.ref 2) ["a"],
          Op.addTaskHandler Iface.nil ["t"], Op.push ⟨"a", 5⟩, Op.setAuth Iface.nil]
        ((SetAuth demoRouter (Iface.ref 1)).router, 0)).1.auth = Iface.ref 1 :=
  SetAuth_stays demoEnv demoRouter (Iface.ref 1) _ 0 (by decide)

/-- With the gate disabled the gate stage of `Push` makes no call. -/
theorem pushAuthorize_off {σ D : Type} [Inhabited D] (env : Env σ D) (r : CommandRouter)
    (cmd : Command D) (w : σ) (hg : r.authcmd = false) :
    pushAuthorize env r cmd w = ([], w, none) := by
  simp [pushAuthorize, hg]

/-- The handle stage reads nothing of the router but its event store. -/
theorem pushHandle_congr {σ D : Type} (env : Env σ D) (r r' : CommandRouter) (h : Iface)
    (cmd : Command D) (w : σ) (hes : r'.es = r.es) :
    pushHandle env r' h cmd w = pushHandle env r h cmd w := by
  simp [pushHandle, hes]

/-- The handle stage never calls `Auth`. -/
theorem pushHandle_calls_noAuth {σ D : Type} (env : Env σ D) (r : CommandRouter) (h : Iface)
    (cmd : Command D) (w : σ) :
    ∀ c ∈ (pushHandle env r h cmd w).1, c.isAuth = false := by
  unfold pushHandle
  split
  · simp
  · split
    · simp [Call.isAuth]
    · split
      · simp [Call.isAuth]
      · split
        · simp [Call.isAuth]
        · simp [Call.isAuth]

/-- With the gate disabled, `Push` of a valid command with a registered
handler is the lookup followed by the handle stage. -/
theorem Push_off_eq {σ D : Type} [Inhabited D] (env : Env σ D) (r : CommandRouter)
    (cmd : Command D) (w : σ) (h : Iface) (hg : r.authcmd = false)
    (hv : env.Validate cmd = none) (hl : r.cmdHandlers cmd.Name = some h) :
    (Push env r cmd w).out = (pushHandle env r h cmd w).2.2
      ∧ (Push env r cmd w).calls =
          [Call.validate cmd, Call.lockOp LockOp.rlock, Call.lockOp LockOp.runlock]
            ++ (pushHandle env r h cmd w).1
      ∧ (Push env r cmd w).world = (pushHandle env r h cmd w).2.1 := by
  simp [Push, hv, hl, pushAuthorize_off env r cmd w hg]

/-- C12: on a router whose gate is disabled, `Push` of any command never calls
`Auth`, and what it returns, the calls it makes and the world it leaves are
the same whatever authorizer value the router holds; a valid command with a
registered handler goes from the lookup straight to that handler's `Deal`. -/
theorem Push_gate_disabled {σ D : Type} [Inhabited D] (env : Env σ D)
    (r : CommandRouter) (cmd : Command D) (w : σ) (hg : r.authcmd = false) :
    (∀ c ∈ (Push env r cmd w).calls, c.isAuth = false)
      ∧ (∀ a : Iface,
          (Push env { r with auth := a } cmd w).out = (Push env r cmd w).out
            ∧ (Push env { r with auth := a } cmd w).calls = (Push env r cmd w).calls
            ∧ (Push env { r with auth := a } cmd w).world = (Push env r cmd w).world)
      ∧ (∀ hid : Nat, env.Validate cmd = none →
          r.cmdHandlers cmd.Name = some (Iface.ref hid) →
          ∃ rest, (Push env r cmd w).calls =
            [Call.validate cmd, Call.lockOp LockOp.rlock, Call.lockOp LockOp.runlock,
              Call.deal hid cmd] ++ rest) := by
  refine ⟨?_, ?_, ?_⟩
  · cases hv : env.Validate cmd with
    | some e => simp [Push, hv, Call.isAuth]
    | none =>
      cases hl : r.cmdHandlers cmd.Name with
      | none => simp [Push, hv, hl, Call.isAuth]
      | some h =>
        rw [(Push_off_eq env r cmd w h hg hv hl).2.1]
        intro c hc
        simp only [List.mem_append, List.mem_cons, List.not_mem_nil, or_false] at hc
        rcases hc with (hc | hc | hc) | hc
        · subst hc; rfl
        · subst hc; rfl
        · subst hc; rfl
        · exact pushHandle_calls_noAuth env r h cmd w c hc
  · intro a
    cases hv : env.Validate cmd with
    | some e => simp [Push, hv]
    | none =>
      cases hl : r.cmdHandlers cmd.Name with
      | none => simp [Push, hv, hl]
      | some h =>
        have h1 := Push_off_eq env r cmd w h hg hv hl
        have h2 := Push_off_eq env { r with auth := a } cmd w h hg hv hl
        have h3 := pushHandle_congr env r { r with auth := a } h cmd w rfl
        rw [h1.1, h1.2.1, h1.2.2, h2.1, h2.2.1, h2.2.2, h3]
        exact ⟨rfl, rfl, rfl⟩
  · intro hid hv hl
    rw [(Push_off_eq env r cmd w _ hg hv hl).2.1]
    unfold pushHandle
    simp only
    split
    · exact ⟨[], rfl⟩
    · split
      · exact ⟨[], rfl⟩
      · split
        · exact ⟨[], rfl⟩
        · exact ⟨_, rfl⟩

/-- Witness of C12 on the demo deployment: `demoRouter` has no authorizer and
the gate disabled. -/
theorem Push_gate_disabled_witness :
    (∀ c ∈ (Push demoEnv demoRouter ⟨"a", 100⟩ 0).calls, c.isAuth = false)
      ∧ (∀ a : Iface,
          (Push demoEnv { demoRouter with auth := a } ⟨"a", 100⟩ 0).out
              = (Push demoEnv demoRouter ⟨"a", 100⟩ 0).out
            ∧ (Push demoEnv { demoRouter with auth := a } ⟨"a", 100⟩ 0).calls
              = (Push demoEnv demoRouter ⟨"a", 100⟩ 0).calls
            ∧ (Push demoEnv { demoRouter with auth := a } ⟨"a", 100⟩ 0).world
              = (Push demoEnv demoRouter ⟨"a", 100⟩ 0).world)
      ∧ (∀ hid : Nat, demoEnv.Validate ⟨"a", 100⟩ = none →
          demoRouter.cmdHandlers (⟨"a", 100⟩ : Command Nat).Name = some (Iface.ref hid) →
          ∃ rest, (Push demoEnv demoRouter ⟨"a", 100⟩ 0).calls =
            [Call.validate ⟨"a", 100⟩, Call.lockOp LockOp.rlock, Call.lockOp LockOp.runlock,
              Call.deal hid ⟨"a", 100⟩] ++ rest) :=
  Push_gate_disabled demoEnv demoRouter ⟨"a", 100⟩ 0 (by decide)

/-- C18: `Push` leaves the router unchanged, for every router state, command,
world and behaviour of the collaborators, whatever the outcome (a returned
result of any kind, or a panic): the command handler table, the task table,
the event store, the authorizer and the enabled flag after `Push` are those
before it. -/
theorem Push_frame {σ D : Type} [Inhabited D] (env : Env σ D) (r : CommandRouter)
    (cmd : Command D) (w : σ) :
    (Push env r cmd w).router = r
      ∧ (Push env r cmd w).router.cmdHandlers = r.cmdHandlers
      ∧ (Push env r cmd w).router.taskMap = r.taskMap
      ∧ (Push env r cmd w).router.es = r.es
      ∧ (Push env r cmd w).router.auth = r.auth
      ∧ (Push env r cmd w).router.authcmd = r.authcmd := by
  rw [Push_router_eq]
  exact ⟨rfl, rfl, rfl, rfl, rfl, rfl⟩

/-- The shapes of the gate stage: no call (gate disabled, or no authorizer to
call), or one `Auth` call of the installed authorizer, which lets the command
pass exactly when it returns no error. -/
theorem pushAuthorize_shape {σ D : Type} [Inhabited D] (env : Env σ D) (r : CommandRouter)
    (cmd : Command D) (w : σ) :
    ((pushAuthorize env r cmd w).1 = []
        ∧ ((pushAuthorize env r cmd w).2.2 = none → r.authcmd = false))
      ∨ (∃ a, r.authcmd = true ∧ r.auth = Iface.ref a
          ∧ (pushAuthorize env r cmd w).1 = [Call.auth a cmd]
          ∧ ((pushAuthorize env r cmd w).2.2 = none →
              env.Auth a cmd w = (none, (pushAuthorize env r cmd w).2.1))) := by
  unfold pushAuthorize
  split
  · rename_i hg
    split
    · left; simp
    · rename_i a ha
      right
      refine ⟨a, hg, ha, ?_⟩
      split
      · simp
      · rename_i w1 hr
        simp [hr]
  · rename_i hg
    left
    simpa using hg

/-- The shapes of the handle stage: no call (nil handler), one `Deal` call, or
`Deal`, `Store` and `Set`, the last two only after a `Deal` result without
error flag. -/
theorem pushHandle_shape {σ D : Type} (env : Env σ D) (r : CommandRouter) (h : Iface)
    (cmd : Command D) (w : σ) :
    (pushHandle env r h cmd w).1 = []
      ∨ (∃ hid, h = Iface.ref hid ∧ (pushHandle env r h cmd w).1 = [Call.deal hid cmd])
      ∨ (∃ hid ev res w1 s sres res1, h = Iface.ref hid
          ∧ env.Deal hid cmd w = ((ev, some res), w1) ∧ res.Error = false
          ∧ r.es = Iface.ref s
          ∧ (pushHandle env r h cmd w).1
              = [Call.deal hid cmd, Call.store s ev, Call.set res1 sres]) := by
  unfold pushHandle
  split
  · left; rfl
  · rename_i hid
    split
    · right; left; exact ⟨hid, rfl, rfl⟩
    · rename_i ev res w1 hd
      split
      · right; left; exact ⟨hid, rfl, rfl⟩
      · rename_i he
        split
        · right; left; exact ⟨hid, rfl, rfl⟩
        · rename_i s hes
          right; right
          exact ⟨hid, ev, res, w1, s, _, _, rfl, hd, by simpa using he, hes, rfl⟩

/-- The shapes of `Push`: it stops after `Validate`, after the lookup, after
the gate, or runs the handle stage. -/
theorem Push_calls_shape {σ D : Type} [Inhabited D] (env : Env σ D) (r : CommandRouter)
    (cmd : Command D) (w : σ) :
    (env.Validate cmd ≠ none ∧ (Push env r cmd w).calls = [Call.validate cmd])
      ∨ (env.Validate cmd = none ∧ r.cmdHandlers cmd.Name = none
          ∧ (Push env r cmd w).calls =
              [Call.validate cmd, Call.lockOp LockOp.rlock, Call.lockOp LockOp.runlock])
      ∨ (∃ h, env.Validate cmd = none ∧ r.cmdHandlers cmd.Name = some h
          ∧ (pushAuthorize env r cmd w).2.2 ≠ none
          ∧ (Push env r cmd w).calls =
              [Call.validate cmd, Call.lockOp LockOp.rlock, Call.lockOp LockOp.runlock]
                ++ (pushAuthorize env r cmd w).1)
      ∨ (∃ h, env.Validate cmd = none ∧ r.cmdHandlers cmd.Name = some h
          ∧ (pushAuthorize env r cmd w).2.2 = none
          ∧ (Push env r cmd w).calls =
              [Call.validate cmd, Call.lockOp LockOp.rlock, Call.lockOp LockOp.runlock]
                ++ (pushAuthorize env r cmd w).1
                ++ (pushHandle env r h cmd (pushAuthorize env r cmd w).2.1).1) := by
  cases hv : env.Validate cmd with
  | some e => left; simp [Push, hv]
  | none =>
    cases hl : r.cmdHandlers cmd.Name with
    | none => right; left; simp [Push, hv, hl]
    | some h =>
      right; right
      rcases hpa : pushAuthorize env r cmd w with ⟨ac, w1, early⟩
      cases early with
      | some o => left; exact ⟨h, rfl, rfl, by simp, by simp [Push, hv, hl, hpa]⟩
      | none => right; exact ⟨h, rfl, rfl, rfl, by simp [Push, hv, hl, hpa]⟩

/-- A call of the gate stage is the `Auth` call of the installed authorizer,
on a router with the gate enabled. -/
theorem pushAuthorize_mem {σ D : Type} [Inhabited D] (env : Env σ D) (r : CommandRouter)
    (cmd : Command D) (w : σ) (c : Call D) (hc : c ∈ (pushAuthorize env r cmd w).1) :
    ∃ a, c = Call.auth a cmd ∧ r.authcmd = true ∧ r.auth = Iface.ref a := by
  rcases pushAuthorize_shape env r cmd w with ⟨ha, _⟩ | ⟨a, hg, hau, ha, _⟩
  · rw [ha] at hc; cases hc
  · rw [ha] at hc
    exact ⟨a, List.mem_singleton.mp hc, hg, hau⟩

/-- A call of the handle stage is the `Deal` call of the handler, or, after a
`Deal` result without error flag, the `Store` call with the event of `Deal`
or the `Set` call that follows it. -/
theorem pushHandle_mem {σ D : Type} (env : Env σ D) (r : CommandRouter) (h : Iface)
    (cmd : Command D) (w : σ) (c : Call D) (hc : c ∈ (pushHandle env r h cmd w).1) :
    ∃ hid, h = Iface.ref hid ∧ Call.deal hid cmd ∈ (pushHandle env r h cmd w).1
      ∧ (c = Call.deal hid cmd
        ∨ ∃ ev res w1 s sres res1, env.Deal hid cmd w = ((ev, some res), w1)
            ∧ res.Error = false ∧ r.es = Iface.ref s
            ∧ Call.store s ev ∈ (pushHandle env r h cmd w).1
            ∧ (c = Call.store s ev ∨ c = Call.set res1 sres)) := by
  rcases pushHandle_shape env r h cmd w with
    hh | ⟨hid, hhid, hh⟩ | ⟨hid, ev, res, w1, s, sres, res1, hhid, hd, he, hes, hh⟩
  · rw [hh] at hc; cases hc
  · rw [hh] at hc ⊢
    exact ⟨hid, hhid, List.mem_singleton.mpr rfl, Or.inl (List.mem_singleton.mp hc)⟩
  · rw [hh] at hc ⊢
    refine ⟨hid, hhid, List.mem_cons_self _ _, ?_⟩
    simp only [List.mem_cons, List.mem_singleton, List.not_mem_nil, or_false] at hc
    rcases hc with hc | hc | hc
    · exact Or.inl hc
    · exact Or.inr ⟨ev, res, w1, s, sres, res1, hd, he, hes,
        List.mem_cons_of_mem _ (List.mem_cons_self _ _), Or.inl hc⟩
    · exact Or.inr ⟨ev, res, w1, s, sres, res1, hd, he, hes,
        List.mem_cons_of_mem _ (List.mem_cons_self _ _), Or.inr hc⟩

/-- Where a recorded call of `Push` comes from: it is the `Validate` call or
one of the two lock operations of the lookup, or a call of the gate stage of a
valid command with a registered handler, or a call of the handle stage of such
a command that passed the gate. -/
theorem Push_mem {σ D : Type} [Inhabited D] (env : Env σ D) (r : CommandRouter)
    (cmd : Command D) (w : σ) (c : Call D) (hc : c ∈ (Push env r cmd w).calls) :
    (c = Call.validate cmd ∨ c = Call.lockOp LockOp.rlock ∨ c = Call.lockOp LockOp.runlock)
      ∨ (env.Validate cmd = none ∧ r.cmdHandlers cmd.Name ≠ none
          ∧ c ∈ (pushAuthorize env r cmd w).1)
      ∨ (∃ h, env.Validate cmd = none ∧ r.cmdHandlers cmd.Name = some h
          ∧ (pushAuthorize env r cmd w).2.2 = none
          ∧ c ∈ (pushHandle env r h cmd (pushAuthorize env r cmd w).2.1).1
          ∧ ∀ c' ∈ (pushHandle env r h cmd (pushAuthorize env r cmd w).2.1).1,
              c' ∈ (Push env r cmd w).calls) := by
  rcases Push_calls_shape env r cmd w with
    ⟨hv, hs⟩ | ⟨hv, hl, hs⟩ | ⟨h, hv, hl, hne, hs⟩ | ⟨h, hv, hl, hnone, hs⟩
  · rw [hs] at hc
    exact Or.inl (Or.inl (List.mem_singleton.mp hc))
  · rw [hs] at hc
    simp only [List.mem_cons, List.mem_singleton, List.not_mem_nil, or_false] at hc
    exact Or.inl hc
  · rw [hs] at hc
    simp only [List.mem_append, List.mem_cons, List.mem_singleton, List.not_mem_nil,
      or_false] at hc
    rcases hc with hc | hc
    · exact Or.inl hc
    · exact Or.inr (Or.inl ⟨hv, by simp [hl], hc⟩)
  · rw [hs] at hc
    simp only [List.mem_append, List.mem_cons, List.mem_singleton, List.not_mem_nil,
      or_false] at hc
    rcases hc with (hc | hc) | hc
    · exact Or.inl hc
    · exact Or.inr (Or.inl ⟨hv, by simp [hl], hc⟩)
    · refine Or.inr (Or.inr ⟨h, hv, hl, hnone, hc, ?_⟩)
      intro c' hc'
      rw [hs]
      exact List.mem_append_right _ hc'

/-- The stages of the recorded calls of `Push` strictly increase. -/
theorem Push_stage_pairwise {σ D : Type} [Inhabited D] (env : Env σ D) (r : CommandRouter)
    (cmd : Command D) (w : σ) :
    ((Push env r cmd w).calls.map Call.stage).Pairwise (fun i j => i < j) := by
  rcases Push_calls_shape env r cmd w with
    ⟨hv, hc⟩ | ⟨hv, hl, hc⟩ | ⟨h, hv, hl, hne, hc⟩ | ⟨h, hv, hl, hnone, hc⟩
  · rw [hc]; simp [Call.stage]
  · rw [hc]; simp [Call.stage]
  · rcases pushAuthorize_shape env r cmd w with ⟨ha, _⟩ | ⟨a, hg, hau, ha, _⟩
    · rw [hc, ha]; simp [Call.stage]
    · rw [hc, ha]; simp [Call.stage]
  · rcases pushAuthorize_shape env r cmd w with ⟨ha, _⟩ | ⟨a, hg, hau, ha, _⟩
    · rcases pushHandle_shape env r h cmd (pushAuthorize env r cmd w).2.1 with
        hh | ⟨hid, hhid, hh⟩ | ⟨hid, ev, res, w1, s, sres, res1, hhid, hd, he, hes, hh⟩
      · rw [hc, ha, hh]; simp [Call.stage]
      · rw [hc, ha, hh]; simp [Call.stage]
      · rw [hc, ha, hh]; simp [Call.stage]
    · rcases pushHandle_shape env r h cmd (pushAuthorize env r cmd w).2.1 with
        hh | ⟨hid, hhid, hh⟩ | ⟨hid, ev, res, w1, s, sres, res1, hhid, hd, he, hes, hh⟩
      · rw [hc, ha, hh]; simp [Call.stage]
      · rw [hc, ha, hh]; simp [Call.stage]
      · rw [hc, ha, hh]; simp [Call.stage]

/-- A command that passed the gate of a router with the gate enabled was
accepted by the installed authorizer. -/
theorem pushAuthorize_pass {σ D : Type} [Inhabited D] (env : Env σ D) (r : CommandRouter)
    (cmd : Command D) (w : σ) (hnone : (pushAuthorize env r cmd w).2.2 = none)
    (hg : r.authcmd = true) :
    ∃ a w1, r.auth = Iface.ref a ∧ env.Auth a cmd w = (none, w1) := by
  rcases pushAuthorize_shape env r cmd w with ⟨_, hoff⟩ | ⟨a, _, hau, _, hpass⟩
  · rw [hoff hnone] at hg; cases hg
  · exact ⟨a, _, hau, hpass hnone⟩

/-- C13: in every `Push` the recorded calls come in the fixed order
`Validate`, lookup, `Auth`, `Deal`, `Store`, `Set`, each at most once (their
stages strictly increase, so no stage is repeated or retried); `Auth` is
called only for a valid command with a registered handler on a router with the
gate enabled; `Deal` only if `Validate` returned no error, the handler is
registered under the name and, when the gate is enabled, `Auth` returned no
error; `Store` only if moreover `Deal` was called and its result has
`Error = false`; `Set` only after `Store`. -/
theorem Push_stage_order {σ D : Type} [Inhabited D] (env : Env σ D) (r : CommandRouter)
    (cmd : Command D) (w : σ) :
    ((Push env r cmd w).calls.map Call.stage).Pairwise (fun i j => i < j)
      ∧ (∀ a c, Call.auth a c ∈ (Push env r cmd w).calls →
          c = cmd ∧ env.Validate cmd = none ∧ r.cmdHandlers cmd.Name ≠ none
            ∧ r.authcmd = true ∧ r.auth = Iface.ref a)
      ∧ (∀ hid c, Call.deal hid c ∈ (Push env r cmd w).calls →
          c = cmd ∧ env.Validate cmd = none
            ∧ r.cmdHandlers cmd.Name = some (Iface.ref hid)
            ∧ (r.authcmd = true →
                ∃ a w1, r.auth = Iface.ref a ∧ env.Auth a cmd w = (none, w1)))
      ∧ (∀ s ev, Call.store s ev ∈ (Push env r cmd w).calls →
          r.es = Iface.ref s
            ∧ ∃ hid res w1 w2, Call.deal hid cmd ∈ (Push env r cmd w).calls
                ∧ env.Deal hid cmd w1 = ((ev, some res), w2) ∧ res.Error = false)
      ∧ (∀ res sres, Call.set res sres ∈ (Push env r cmd w).calls →
          ∃ s ev, Call.store s ev ∈ (Push env r cmd w).calls) := by
  refine ⟨Push_stage_pairwise env r cmd w, ?_, ?_, ?_, ?_⟩
  · intro a c hm
    rcases Push_mem env r cmd w _ hm with (h1 | h1 | h1) | ⟨hv, hl, hpa⟩ | ⟨h, hv, hl, _, hph, _⟩
    · cases h1
    · cases h1
    · cases h1
    · obtain ⟨a', he, hg, hau⟩ := pushAuthorize_mem env r cmd w _ hpa
      cases he
      exact ⟨rfl, hv, hl, hg, hau⟩
    · obtain ⟨hid, _, _, h2 | ⟨ev, res, w1, s, sres, res1, _, _, _, _, h2 | h2⟩⟩ :=
        pushHandle_mem env r h cmd _ _ hph
      · cases h2
      · cases h2
      · cases h2
  · intro hid c hm
    rcases Push_mem env r cmd w _ hm with
      (h1 | h1 | h1) | ⟨hv, hl, hpa⟩ | ⟨h, hv, hl, hnone, hph, _⟩
    · cases h1
    · cases h1
    · cases h1
    · obtain ⟨a', he, _, _⟩ := pushAuthorize_mem env r cmd w _ hpa
      cases he
    · obtain ⟨hid', hh, _, h2 | ⟨ev, res, w1, s, sres, res1, _, _, _, _, h2 | h2⟩⟩ :=
        pushHandle_mem env r h cmd _ _ hph
      · cases h2
        exact ⟨rfl, hv, hh ▸ hl, pushAuthorize_pass env r cmd w hnone⟩
      · cases h2
      · cases h2
  · intro s ev hm
    rcases Push_mem env r cmd w _ hm with
      (h1 | h1 | h1) | ⟨hv, hl, hpa⟩ | ⟨h, hv, hl, hnone, hph, hsub⟩
    · cases h1
    · cases h1
    · cases h1
    · obtain ⟨a', he, _, _⟩ := pushAuthorize_mem env r cmd w _ hpa
      cases he
    · obtain ⟨hid', hh, hdm, h2 | ⟨ev', res, w1, s', sres, res1, hd, he, hes, _, h2 | h2⟩⟩ :=
        pushHandle_mem env r h cmd _ _ hph
      · cases h2
      · cases h2
        exact ⟨hes, hid', res, _, w1, hsub _ hdm, hd, he⟩
      · cases h2
  · intro res sres hm
    rcases Push_mem env r cmd w _ hm with
      (h1 | h1 | h1) | ⟨hv, hl, hpa⟩ | ⟨h, hv, hl, hnone, hph, hsub⟩
    · cases h1
    · cases h1
    · cases h1
    · obtain ⟨a', he, _, _⟩ := pushAuthorize_mem env r cmd w _ hpa
      cases he
    · obtain ⟨hid', hh, hdm, h2 | ⟨ev', res', w1, s', sres', res1, hd, he, hes, hsm, h2⟩⟩ :=
        pushHandle_mem env r h cmd _ _ hph
      · cases h2
      · exact ⟨s', ev', hsub _ hsm⟩

/-- With a non-nil authorizer behind an enabled gate, the gate stage does not
panic. -/
theorem pushAuthorize_no_panic {σ D : Type} [Inhabited D] (env : Env σ D)
    (r : CommandRouter) (cmd : Command D) (w : σ)
    (hr : r.authcmd = true → r.auth ≠ Iface.nil) :
    (pushAuthorize env r cmd w).2.2 = none
      ∨ ∃ res, (pushAuthorize env r cmd w).2.2 = some (Outcome.ret res) := by
  unfold pushAuthorize
  split
  · rename_i hg
    split
    · rename_i hnil
      exact absurd hnil (hr hg)
    · split
      · right; exact ⟨_, rfl⟩
      · left; rfl
  · left; rfl

/-- With a non-nil handler, a non-nil store and handlers that return non-nil
results, the handle stage returns a result. -/
theorem pushHandle_returns {σ D : Type} (env : Env σ D) (r : CommandRouter) (hid : Nat)
    (cmd : Command D) (w : σ) (hes : r.es ≠ Iface.nil) (hdeal : DealNonNil env) :
    ∃ res, (pushHandle env r (Iface.ref hid) cmd w).2.2 = Outcome.ret res := by
  unfold pushHandle
  simp only
  split
  · rename_i ev w1 hd
    have := hdeal hid cmd w
    rw [hd] at this
    exact absurd rfl this
  · split
    · exact ⟨_, rfl⟩
    · split
      · rename_i hnil
        exact absurd hnil hes
      · exact ⟨_, rfl⟩

/-- On a router that holds no nil interface value, with handlers that return
non-nil results, `Push` returns a result. -/
theorem Push_returns_of_nonNil {σ D : Type} [Inhabited D] (env : Env σ D)
    (r : CommandRouter) (cmd : Command D) (w : σ) (hr : RouterNonNil r)
    (hdeal : DealNonNil env) :
    ∃ res, (Push env r cmd w).out = Outcome.ret res := by
  obtain ⟨hes, hh, hau⟩ := hr
  cases hv : env.Validate cmd with
  | some e => exact ⟨errResult InvalidCommand, by simp [Push, hv]⟩
  | none =>
    cases hl : r.cmdHandlers cmd.Name with
    | none => exact ⟨errResult InvalidCommand, by simp [Push, hv, hl]⟩
    | some h =>
      cases h with
      | nil => exact absurd hl (hh cmd.Name)
      | ref hid =>
        rcases hpa : pushAuthorize env r cmd w with ⟨ac, w1, early⟩
        rcases pushAuthorize_no_panic env r cmd w hau with hn | ⟨res, hn⟩
        · rw [hpa] at hn
          simp only at hn
          subst hn
          obtain ⟨res, hres⟩ := pushHandle_returns env r hid cmd w1 hes hdeal
          refine ⟨res, ?_⟩
          simp [Push, hv, hl, hpa, hres]
        · rw [hpa] at hn
          simp only at hn
          subst hn
          exact ⟨res, by simp [Push, hv, hl, hpa]⟩

/-- A public operation whose interface argument is not nil keeps the router
free of nil interface values. -/
theorem Op.run_keeps_nonNil {σ D : Type} [Inhabited D] (env : Env σ D) (op : Op D)
    (s : CommandRouter × σ) (hop : op.argsNonNil = true) (hr : RouterNonNil s.1) :
    RouterNonNil (op.run env s).1 := by
  obtain ⟨hes, hh, hau⟩ := hr
  cases op with
  | push cmd =>
    simp only [Op.run, Push_router_eq]
    exact ⟨hes, hh, hau⟩
  | addCommandHandler h ks =>
    simp only [Op.argsNonNil, decide_eq_true_eq] at hop
    refine ⟨hes, ?_, hau⟩
    intro k
    simp only [Op.run, AddCommandHandler]
    rw [foldl_set_apply]
    split
    · intro hk
      exact hop (Option.some.inj hk)
    · exact hh k
  | addTaskHandler h ks =>
    exact ⟨hes, hh, hau⟩
  | setAuth a =>
    simp only [Op.argsNonNil, decide_eq_true_eq] at hop
    cases hg : s.1.authcmd with
    | false =>
      refine ⟨?_, ?_, ?_⟩
      · simpa [Op.run, SetAuth, hg] using hes
      · simpa [Op.run, SetAuth, hg] using hh
      · intro _
        simpa [Op.run, SetAuth, hg] using hop
    | true =>
      refine ⟨?_, ?_, ?_⟩
      · simpa [Op.run, SetAuth, hg] using hes
      · simpa [Op.run, SetAuth, hg] using hh
      · intro _
        simpa [Op.run, SetAuth, hg] using hau hg

/-- A sequence of public operations whose interface arguments are not nil
keeps the router free of nil interface values. -/
theorem runOps_keeps_nonNil {σ D : Type} [Inhabited D] (env : Env σ D) (ops : List (Op D))
    (s : CommandRouter × σ) (hops : ∀ op ∈ ops, op.argsNonNil = true)
    (hr : RouterNonNil s.1) : RouterNonNil (runOps env ops s).1 := by
  induction ops generalizing s with
  | nil => simpa [runOps] using hr
  | cons op rest ih =>
    have h1 := Op.run_keeps_nonNil env op s (hops op (List.mem_cons_self _ _)) hr
    have h2 := ih (op.run env s) (fun o ho => hops o (List.mem_cons_of_mem _ ho)) h1
    simpa [runOps] using h2

/-- C14, as amended: for every router reached from `NewCommandRouter` with a
non-nil store through public operations that register only non-nil command
handlers and install only a non-nil authorizer, and every command, when each
handler's `Deal` returns a non-nil result `Push` returns a `CommandResult` and
does not panic. -/
theorem Push_never_aborts {σ D : Type} [Inhabited D] (env : Env σ D) (es : Nat)
    (ops : List (Op D)) (w0 w : σ) (cmd : Command D)
    (hops : ∀ op ∈ ops, op.argsNonNil = true) (hdeal : DealNonNil env) :
    ∃ res, (Push env (runOps env ops (NewCommandRouter (Iface.ref es), w0)).1 cmd w).out
      = Outcome.ret res := by
  apply Push_returns_of_nonNil env _ cmd w _ hdeal
  apply runOps_keeps_nonNil env ops _ hops
  refine ⟨?_, ?_, ?_⟩
  · simp [NewCommandRouter]
  · intro k
    simp [NewCommandRouter, GoMap.empty]
  · intro hg
    simp [NewCommandRouter] at hg

/-- The handlers of `tidyEnv` return non-nil results. -/
theorem tidyEnv_dealNonNil : DealNonNil tidyEnv := by
  intro hid cmd w
  simp only [tidyEnv]
  split <;> simp

/-- Witness of C14 as amended, on the handlers of `tidyEnv`: after two
registrations and `SetAuth`, all with non-nil arguments, `Push` returns. -/
theorem Push_never_aborts_witness :
    ∃ res, (Push tidyEnv
        (runOps tidyEnv
          [Op.addCommandHandler (Iface.ref 1) ["a"], Op.setAuth (Iface.ref 1),
            Op.addCommandHandler (Iface.ref 2) ["b"]]
          (NewCommandRouter (Iface.ref 2), 0)).1 ⟨"a", 5⟩ 0).out = Outcome.ret res :=
  Push_never_aborts tidyEnv 2 _ 0 0 ⟨"a", 5⟩ (by decide) tidyEnv_dealNonNil

/-- Counterexample to C14 as stated, with the handlers of `tidyEnv`, whose
`Deal` always returns a non-nil result: on the router reached from
`NewCommandRouter` by `AddCommandHandler(nil, "a")`, on the one reached by
registering handler 1 and `SetAuth(nil)`, and on the one made by
`NewCommandRouter(nil)` with handler 1 registered, `Push` of the valid command
`a` panics with a nil dereference. -/
theorem Push_never_aborts_counterexample :
    DealNonNil tidyEnv
      ∧ (Push tidyEnv
          (runOps tidyEnv [Op.addCommandHandler Iface.nil ["a"]]
            (NewCommandRouter (Iface.ref 1), 0)).1 ⟨"a", 5⟩ 0).out = Outcome.panic nilDeref
      ∧ (Push tidyEnv
          (runOps tidyEnv [Op.addCommandHandler (Iface.ref 1) ["a"], Op.setAuth Iface.nil]
            (NewCommandRouter (Iface.ref 1), 0)).1 ⟨"a", 5⟩ 0).out = Outcome.panic nilDeref
      ∧ (Push tidyEnv
          (runOps tidyEnv [Op.addCommandHandler (Iface.ref 1) ["a"]]
            (NewCommandRouter Iface.nil, 0)).1 ⟨"a", 5⟩ 0).out = Outcome.panic nilDeref :=
  ⟨tidyEnv_dealNonNil, by decide, by decide, by decide⟩

/-- One public operation removes no entry of the command handler table and
no entry of the task table. -/
theorem Op.run_keeps_entries {σ D : Type} [Inhabited D] (env : Env σ D) (op : Op D)
    (s : CommandRouter × σ) (n : String) :
    (s.1.cmdHandlers n ≠ none → (op.run env s).1.cmdHandlers n ≠ none)
      ∧ (s.1.taskMap n ≠ none → (op.run env s).1.taskMap n ≠ none) := by
  cases op with
  | push cmd =>
    simp only [Op.run, Push_router_eq]
    exact ⟨id, id⟩
  | addCommandHandler h ks =>
    refine ⟨?_, id⟩
    intro hn
    simp only [Op.run, AddCommandHandler]
    rw [foldl_set_apply]
    split
    · simp
    · exact hn
  | addTaskHandler h ks =>
    refine ⟨id, ?_⟩
    intro hn
    simp only [Op.run, AddTaskHandler]
    rw [foldl_set_apply]
    split
    · simp
    · exact hn
  | setAuth a =>
    cases hg : s.1.authcmd with
    | false => simp [Op.run, SetAuth, hg]
    | true => simp [Op.run, SetAuth, hg]

/-- C15: `AddCommandHandler(h, ks...)` leaves the mapping of every name that is
not in `ks` exactly as it was, and so does `AddTaskHandler` for the task
table; and a name that has a handler (or a task handler) still has one after
any public operation, and after any sequence of public operations. -/
theorem registry_only_grows {σ D : Type} [Inhabited D] (env : Env σ D)
    (r : CommandRouter) (h : Iface) (ks : List String) (k : String) (hk : k ∉ ks) :
    (AddCommandHandler r h ks).router.cmdHandlers k = r.cmdHandlers k
      ∧ (AddTaskHandler r h ks).router.taskMap k = r.taskMap k
      ∧ (∀ (op : Op D) (w : σ) (n : String),
          (r.cmdHandlers n ≠ none → (op.run env (r, w)).1.cmdHandlers n ≠ none)
            ∧ (r.taskMap n ≠ none → (op.run env (r, w)).1.taskMap n ≠ none))
      ∧ (∀ (ops : List (Op D)) (w : σ) (n : String),
          (r.cmdHandlers n ≠ none → (runOps env ops (r, w)).1.cmdHandlers n ≠ none)
            ∧ (r.taskMap n ≠ none → (runOps env ops (r, w)).1.taskMap n ≠ none)) := by
  refine ⟨?_, ?_, ?_, ?_⟩
  · simp only [AddCommandHandler]
    rw [foldl_set_apply]
    simp [hk]
  · simp only [AddTaskHandler]
    rw [foldl_set_apply]
    simp [hk]
  · intro op w n
    exact Op.run_keeps_entries env op (r, w) n
  · intro ops w n
    have key : ∀ (l : List (Op D)) (s : CommandRouter × σ),
        (s.1.cmdHandlers n ≠ none → (runOps env l s).1.cmdHandlers n ≠ none)
          ∧ (s.1.taskMap n ≠ none → (runOps env l s).1.taskMap n ≠ none) := by
      intro l
      induction l with
      | nil => intro s; exact ⟨by simp [runOps], by simp [runOps]⟩
      | cons op rest ih =>
        intro s
        have h1 := Op.run_keeps_entries env op s n
        have h2 := ih (op.run env s)
        constructor
        · intro hn
          simpa [runOps] using h2.1 (h1.1 hn)
        · intro hn
          simpa [runOps] using h2.2 (h1.2 hn)
    exact key ops (r, w)

/-- Witness of C15 on the demo deployment: registering handler 2 under `x` and
`y` leaves the entry of `a`, and no operation removes an entry. -/
theorem registry_only_grows_witness :
    (AddCommandHandler demoRouter (Iface.ref 2) ["x", "y"]).router.cmdHandlers "a"
        = demoRouter.cmdHandlers "a"
      ∧ (AddTaskHandler demoRouter (Iface.ref 2) ["x", "y"]).router.taskMap "a"
        = demoRouter.taskMap "a"
      ∧ (∀ (op : Op Nat) (w : Nat) (n : String),
          (demoRouter.cmdHandlers n ≠ none →
              (op.run demoEnv (demoRouter, w)).1.cmdHandlers n ≠ none)
            ∧ (demoRouter.taskMap n ≠ none →
              (op.run demoEnv (demoRouter, w)).1.taskMap n ≠ none))
      ∧ (∀ (ops : List (Op Nat)) (w : Nat) (n : String),
          (demoRouter.cmdHandlers n ≠ none →
              (runOps demoEnv ops (demoRouter, w)).1.cmdHandlers n ≠ none)
            ∧ (demoRouter.taskMap n ≠ none →
              (runOps demoEnv ops (demoRouter, w)).1.taskMap n ≠ none)) :=
  registry_only_grows demoEnv demoRouter (Iface.ref 2) ["x", "y"] "a" (by decide)

/-- `Push` reads nothing of the task table. -/
theorem Push_taskMap_irrelevant {σ D : Type} [Inhabited D] (env : Env σ D)
    (r : CommandRouter) (tm : GoMap) (cmd : Command D) (w : σ) :
    (Push env { r with taskMap := tm } cmd w).out = (Push env r cmd w).out
      ∧ (Push env { r with taskMap := tm } cmd w).calls = (Push env r cmd w).calls
      ∧ (Push env { r with taskMap := tm } cmd w).world = (Push env r cmd w).world := by
  have hpa : pushAuthorize env { r with taskMap := tm } cmd w = pushAuthorize env r cmd w :=
    rfl
  have hph : ∀ h w1, pushHandle env { r with taskMap := tm } h cmd w1
      = pushHandle env r h cmd w1 := fun h w1 => pushHandle_congr env r _ h cmd w1 rfl
  cases hv : env.Validate cmd with
  | some e => simp [Push, hv]
  | none =>
    cases hl : r.cmdHandlers cmd.Name with
    | none => simp [Push, hv, hl]
    | some h =>
      rcases hq : pushAuthorize env r cmd w with ⟨ac, w1, early⟩
      cases early with
      | some o => simp [Push, hv, hl, hpa, hq]
      | none => simp [Push, hv, hl, hpa, hq, hph]

/-- The only handler `Push` calls is the one the command handler table holds
under the name of the command. -/
theorem Push_deal_from_cmdHandlers {σ D : Type} [Inhabited D] (env : Env σ D)
    (r : CommandRouter) (cmd : Command D) (w : σ) (hid : Nat) (c : Command D)
    (hm : Call.deal hid c ∈ (Push env r cmd w).calls) :
    c = cmd ∧ r.cmdHandlers cmd.Name = some (Iface.ref hid) := by
  rcases Push_mem env r cmd w _ hm with
    (h1 | h1 | h1) | ⟨hv, hl, hpa⟩ | ⟨h, hv, hl, hnone, hph, _⟩
  · cases h1
  · cases h1
  · cases h1
  · obtain ⟨a', he, _, _⟩ := pushAuthorize_mem env r cmd w _ hpa
    cases he
  · obtain ⟨hid', hh, _, h2 | ⟨ev, res, w1, s, sres, res1, _, _, _, _, h2 | h2⟩⟩ :=
      pushHandle_mem env r h cmd _ _ hph
    · cases h2
      exact ⟨rfl, hh ▸ hl⟩
    · cases h2
    · cases h2

/-- C16: the task table is separate from the command handler table and
dispatch never reads it: the result of `Push`, the calls it makes and the
world it leaves are the same before and after `AddTaskHandler(t, ks...)`; the
only handler `Push` ever calls is the one the command handler table holds under
the command's name, so no task handler is invoked; a valid command whose name
is registered as a task only gets the `InvalidCommand` result; `AddTaskHandler`
leaves the command handler table unchanged and `AddCommandHandler` leaves the
task table unchanged. -/
theorem taskMap_not_dispatched {σ D : Type} [Inhabited D] (env : Env σ D)
    (r : CommandRouter) (t h : Iface) (ks : List String) (cmd : Command D) (w : σ) :
    ((Push env (AddTaskHandler r t ks).router cmd w).out = (Push env r cmd w).out
        ∧ (Push env (AddTaskHandler r t ks).router cmd w).calls = (Push env r cmd w).calls
        ∧ (Push env (AddTaskHandler r t ks).router cmd w).world = (Push env r cmd w).world)
      ∧ (∀ hid c, Call.deal hid c ∈ (Push env (AddTaskHandler r t ks).router cmd w).calls →
          c = cmd ∧ r.cmdHandlers cmd.Name = some (Iface.ref hid))
      ∧ (env.Validate cmd = none → r.cmdHandlers cmd.Name = none → cmd.Name ∈ ks →
          (AddTaskHandler r t ks).router.taskMap cmd.Name = some t
            ∧ (Push env (AddTaskHandler r t ks).router cmd w).out
                = Outcome.ret (errResult InvalidCommand)
            ∧ (Push env (AddTaskHandler r t ks).router cmd w).calls =
                [Call.validate cmd, Call.lockOp LockOp.rlock, Call.lockOp LockOp.runlock])
      ∧ (AddTaskHandler r t ks).router.cmdHandlers = r.cmdHandlers
      ∧ (AddCommandHandler r h ks).router.taskMap = r.taskMap := by
  have heq := Push_taskMap_irrelevant env r
    (ks.foldl (fun m k => GoMap.set m k t) r.taskMap) cmd w
  have hr : (AddTaskHandler r t ks).router
      = { r with taskMap := ks.foldl (fun m k => GoMap.set m k t) r.taskMap } := rfl
  refine ⟨?_, ?_, ?_, rfl, rfl⟩
  · rw [hr]; exact heq
  · intro hid c hm
    rw [hr, heq.2.1] at hm
    exact Push_deal_from_cmdHandlers env r cmd w hid c hm
  · intro hv hl hk
    refine ⟨?_, ?_, ?_⟩
    · simp only [AddTaskHandler]
      rw [foldl_set_apply]
      simp [hk]
    · rw [hr, heq.1]
      simp [Push, hv, hl]
    · rw [hr, heq.2.1]
      simp [Push, hv, hl]

/-- C19: a router fresh from `NewCommandRouter(es)` has an empty command handler
table, an empty task table, the gate disabled, no authorizer, and `es` as its
event store; `Push` of every command on it returns the `InvalidCommand` result
and calls no `Store`; and once a handler is registered under the command's
name, the event of a valid command that the handler accepts is passed to the
`Store` of that same `es`. -/
theorem NewCommandRouter_fresh {σ D : Type} [Inhabited D] (env : Env σ D) (es : Iface)
    (cmd : Command D) (w : σ) :
    ((∀ k, (NewCommandRouter es).cmdHandlers k = none)
        ∧ (∀ k, (NewCommandRouter es).taskMap k = none)
        ∧ (NewCommandRouter es).authcmd = false
        ∧ (NewCommandRouter es).auth = Iface.nil
        ∧ (NewCommandRouter es).es = es)
      ∧ (Push env (NewCommandRouter es) cmd w).out = Outcome.ret (errResult InvalidCommand)
      ∧ (∀ c ∈ (Push env (NewCommandRouter es) cmd w).calls,
          c.isAuth = false ∧ c.isDeal = false ∧ c.isStore = false)
      ∧ (∀ (s hid : Nat) (ks : List String) (ev : Event D) (res : CommandResult D) (w1 : σ),
          es = Iface.ref s → cmd.Name ∈ ks → env.Validate cmd = none →
          env.Deal hid cmd w = ((ev, some res), w1) → res.Error = false →
          (Push env (AddCommandHandler (NewCommandRouter es) (Iface.ref hid) ks).router
              cmd w).calls.filter Call.isStore = [Call.store s ev]) := by
  refine ⟨⟨fun _ => rfl, fun _ => rfl, rfl, rfl, rfl⟩, ?_, ?_, ?_⟩
  · cases hv : env.Validate cmd with
    | some e => simp [Push, hv]
    | none => simp [Push, hv, NewCommandRouter, GoMap.empty]
  · cases hv : env.Validate cmd with
    | some e => simp [Push, hv, Call.isAuth, Call.isDeal, Call.isStore]
    | none =>
      simp [Push, hv, NewCommandRouter, GoMap.empty, Call.isAuth, Call.isDeal, Call.isStore]
  · intro s hid ks ev res w1 hes hk hv hd he
    have hl : (AddCommandHandler (NewCommandRouter es) (Iface.ref hid) ks).router.cmdHandlers
        cmd.Name = some (Iface.ref hid) := by
      simp only [AddCommandHandler]
      rw [foldl_set_apply]
      simp [hk]
    have hg : (AddCommandHandler (NewCommandRouter es) (Iface.ref hid) ks).router.authcmd
        = false := rfl
    have hes' : (AddCommandHandler (NewCommandRouter es) (Iface.ref hid) ks).router.es
        = Iface.ref s := hes
    rw [(Push_off_eq env _ cmd w _ hg hv hl).2.1]
    simp [pushHandle, hd, he, hes', List.filter_cons, Call.isStore]

/-- Calls made after the lookup are no lock operations. -/
theorem lockOps_of_late {D : Type} (l : List (Call D)) (h : ∀ c ∈ l, c.isLate = true) :
    lockOps l = [] := by
  induction l with
  | nil => rfl
  | cons c rest ih =>
    have hc := h c (List.mem_cons_self _ _)
    have hr := ih (fun x hx => h x (List.mem_cons_of_mem _ hx))
    cases c with
    | lockOp op => simp [Call.isLate, Call.isAuth, Call.isDeal, Call.isStore, Call.isSet] at hc
    | validate c' => simpa [lockOps] using hr
    | auth a c' => simpa [lockOps] using hr
    | deal a c' => simpa [lockOps] using hr
    | store a c' => simpa [lockOps] using hr
    | set a c' => simpa [lockOps] using hr

/-- The calls of `Push` are `Validate` alone, or `Validate`, `RLock`, `RUnlock`
followed by collaborator calls only. -/
theorem Push_calls_form {σ D : Type} [Inhabited D] (env : Env σ D) (r : CommandRouter)
    (cmd : Command D) (w : σ) :
    (Push env r cmd w).calls = [Call.validate cmd]
      ∨ ∃ rest, (Push env r cmd w).calls =
            Call.validate cmd :: Call.lockOp LockOp.rlock :: Call.lockOp LockOp.runlock
              :: rest
          ∧ ∀ c ∈ rest, c.isLate = true := by
  have hpa : ∀ c ∈ (pushAuthorize env r cmd w).1, c.isLate = true := by
    intro c hc
    simp [Call.isLate, pushAuthorize_calls env r cmd w c hc]
  have hph : ∀ h w1, ∀ c ∈ (pushHandle env r h cmd w1).1, c.isLate = true := by
    intro h w1 c hc
    obtain ⟨hid, _, _, h2 | ⟨ev, res, w2, s, sres, res1, _, _, _, _, h2 | h2⟩⟩ :=
      pushHandle_mem env r h cmd w1 c hc
    · subst h2; rfl
    · subst h2; rfl
    · subst h2; rfl
  rcases Push_calls_shape env r cmd w with
    ⟨_, hs⟩ | ⟨_, _, hs⟩ | ⟨h, _, _, _, hs⟩ | ⟨h, _, _, _, hs⟩
  · exact Or.inl hs
  · exact Or.inr ⟨[], by simpa using hs, by simp⟩
  · exact Or.inr ⟨_, by simpa using hs, hpa⟩
  · refine Or.inr ⟨(pushAuthorize env r cmd w).1
      ++ (pushHandle env r h cmd (pushAuthorize env r cmd w).2.1).1, by simpa using hs, ?_⟩
    intro c hc
    rcases List.mem_append.mp hc with h1 | h1
    · exact hpa c h1
    · exact hph _ _ c h1

/-- Lock operations in sequence: the second part runs on the state the first
part leaves. -/
theorem runLocks_append (a b : List LockOp) (m : RWMutex) :
    runLocks (a ++ b) m = (runLocks a m).bind (runLocks b) := by
  induction a generalizing m with
  | nil => rfl
  | cons op rest ih =>
    simp only [List.cons_append, runLocks]
    cases op.step m with
    | none => rfl
    | some m1 => exact ih m1

/-- The lock operations of `Push`, run on the released lock, release it. -/
theorem Push_locks_released {σ D : Type} [Inhabited D] (env : Env σ D) (r : CommandRouter)
    (cmd : Command D) (w : σ) :
    runLocks (lockOps (Push env r cmd w).calls) RWMutex.free = some RWMutex.free := by
  rcases Push_calls_form env r cmd w with hs | ⟨rest, hs, hlate⟩
  · rw [hs]; rfl
  · rw [hs]
    simp only [lockOps, lockOps_of_late rest hlate]
    rfl

/-- When `Push` makes a collaborator call after the lookup, the lock
operations before it have released the lock. -/
theorem Push_late_unlocked {σ D : Type} [Inhabited D] (env : Env σ D) (r : CommandRouter)
    (cmd : Command D) (w : σ) (pre post : List (Call D)) (c : Call D)
    (heq : (Push env r cmd w).calls = pre ++ c :: post) (hc : c.isLate = true) :
    runLocks (lockOps pre) RWMutex.free = some RWMutex.free := by
  rcases Push_calls_form env r cmd w with hs | ⟨rest, hs, hlate⟩
  · rw [hs] at heq
    rcases pre with _ | ⟨a, p1⟩
    · simp only [List.nil_append, List.cons.injEq] at heq
      rw [← heq.1] at hc
      cases hc
    · simp at heq
  · rw [hs] at heq
    rcases pre with _ | ⟨a, _ | ⟨b, _ | ⟨d, p3⟩⟩⟩
    · simp only [List.nil_append, List.cons.injEq] at heq
      rw [← heq.1] at hc
      cases hc
    · simp only [List.cons_append, List.nil_append, List.cons.injEq] at heq
      rw [← heq.2.1] at hc
      cases hc
    · simp only [List.cons_append, List.nil_append, List.cons.injEq] at heq
      rw [← heq.2.2.1] at hc
      cases hc
    · simp only [List.cons_append, List.cons.injEq] at heq
      obtain ⟨h1, h2, h3, h4⟩ := heq
      subst h1 h2 h3
      have hp3 : ∀ x ∈ p3, x.isLate = true := by
        intro x hx
        apply hlate
        rw [h4]
        exact List.mem_append_left _ hx
      simp only [lockOps, lockOps_of_late p3 hp3]
      rfl

/-- In the calls of `Push` the read lock is taken on the released lock and
the next recorded call releases it. -/
theorem Push_rlock_adjacent {σ D : Type} [Inhabited D] (env : Env σ D) (r : CommandRouter)
    (cmd : Command D) (w : σ) (pre post : List (Call D))
    (heq : (Push env r cmd w).calls = pre ++ Call.lockOp LockOp.rlock :: post) :
    runLocks (lockOps pre) RWMutex.free = some RWMutex.free
      ∧ ∃ post', post = Call.lockOp LockOp.runlock :: post' := by
  rcases Push_calls_form env r cmd w with hs | ⟨rest, hs, hlate⟩
  · rw [hs] at heq
    rcases pre with _ | ⟨a, p1⟩
    · simp at heq
    · simp at heq
  · rw [hs] at heq
    rcases pre with _ | ⟨a, _ | ⟨b, _ | ⟨d, p3⟩⟩⟩
    · simp at heq
    · simp only [List.cons_append, List.nil_append, List.cons.injEq] at heq
      obtain ⟨h1, _, h3⟩ := heq
      subst h1
      exact ⟨rfl, rest, h3.symm⟩
    · simp at heq
    · simp only [List.cons_append, List.cons.injEq] at heq
      obtain ⟨_, _, _, h4⟩ := heq
      have := hlate (Call.lockOp LockOp.rlock) (by rw [h4]; simp)
      cases this

/-- C20: with the lock as explicit state, every public operation leaves the
lock released when it ends.  `Push` takes the read lock on the released lock
and releases it with its next step, and whenever it calls `Auth`, `Deal`,
`Store` or `Set` the lock is released; `AddCommandHandler` and
`AddTaskHandler` release the write lock on return; `SetAuth` releases it on
both paths, also when it panics because the gate is already enabled, so the
lock operations of a later `Push`, registration or `SetAuth` complete. -/
theorem lock_released {σ D : Type} [Inhabited D] (env : Env σ D) (r : CommandRouter)
    (cmd : Command D) (w : σ) (h a : Iface) (ks : List String) :
    runLocks (lockOps (Push env r cmd w).calls) RWMutex.free = some RWMutex.free
      ∧ (∀ pre c post, (Push env r cmd w).calls = pre ++ c :: post → c.isLate = true →
          runLocks (lockOps pre) RWMutex.free = some RWMutex.free)
      ∧ (∀ pre post, (Push env r cmd w).calls = pre ++ Call.lockOp LockOp.rlock :: post →
          runLocks (lockOps pre) RWMutex.free = some RWMutex.free
            ∧ ∃ post', post = Call.lockOp LockOp.runlock :: post')
      ∧ runLocks (AddCommandHandler r h ks).locks RWMutex.free = some RWMutex.free
      ∧ runLocks (AddTaskHandler r h ks).locks RWMutex.free = some RWMutex.free
      ∧ runLocks (SetAuth r a).locks RWMutex.free = some RWMutex.free
      ∧ (r.authcmd = true →
          (SetAuth r a).panicked = some "auth already set"
            ∧ runLocks (SetAuth r a).locks RWMutex.free = some RWMutex.free
            ∧ runLocks ((SetAuth r a).locks
                ++ lockOps (Push env (SetAuth r a).router cmd w).calls) RWMutex.free
                = some RWMutex.free
            ∧ runLocks ((SetAuth r a).locks
                ++ (AddCommandHandler (SetAuth r a).router h ks).locks) RWMutex.free
                = some RWMutex.free
            ∧ runLocks ((SetAuth r a).locks
                ++ (AddTaskHandler (SetAuth r a).router h ks).locks) RWMutex.free
                = some RWMutex.free
            ∧ runLocks ((SetAuth r a).locks ++ (SetAuth (SetAuth r a).router a).locks)
                RWMutex.free = some RWMutex.free) := by
  have hset : ∀ r' a', runLocks (SetAuth r' a').locks RWMutex.free = some RWMutex.free := by
    intro r' a'
    cases hg : r'.authcmd with
    | false => simp [SetAuth, hg]; rfl
    | true => simp [SetAuth, hg]; rfl
  refine ⟨Push_locks_released env r cmd w, ?_, ?_, rfl, rfl, hset r a, ?_⟩
  · intro pre c post heq hc
    exact Push_late_unlocked env r cmd w pre post c heq hc
  · intro pre post heq
    exact Push_rlock_adjacent env r cmd w pre post heq
  · intro hg
    refine ⟨by simp [SetAuth, hg], hset r a, ?_, ?_, ?_, ?_⟩
    · rw [runLocks_append, hset r a]
      exact Push_locks_released env _ cmd w
    · rw [runLocks_append, hset r a]
      rfl
    · rw [runLocks_append, hset r a]
      rfl
    · rw [runLocks_append, hset r a]
      exact hset _ a

/-- Witness of C20 on the demo deployment: a second `SetAuth` on `demoGated`
panics, and the lock operations of the `Push` that follows complete. -/
theorem lock_released_witness :
    (SetAuth demoGated (Iface.ref 2)).panicked = some "auth already set"
      ∧ runLocks (SetAuth demoGated (Iface.ref 2)).locks RWMutex.free = some RWMutex.free
      ∧ runLocks ((SetAuth demoGated (Iface.ref 2)).locks
          ++ lockOps (Push demoEnv (SetAuth demoGated (Iface.ref 2)).router ⟨"a", 5⟩ 0).calls)
          RWMutex.free = some RWMutex.free
      ∧ runLocks ((SetAuth demoGated (Iface.ref 2)).locks
          ++ (AddCommandHandler (SetAuth demoGated (Iface.ref 2)).router (Iface.ref 1)
            ["x"]).locks) RWMutex.free = some RWMutex.free
      ∧ runLocks ((SetAuth demoGated (Iface.ref 2)).locks
          ++ (AddTaskHandler (SetAuth demoGated (Iface.ref 2)).router (Iface.ref 1)
            ["x"]).locks) RWMutex.free = some RWMutex.free
      ∧ runLocks ((SetAuth demoGated (Iface.ref 2)).locks
          ++ (SetAuth (SetAuth demoGated (Iface.ref 2)).router (Iface.ref 2)).locks)
          RWMutex.free = some RWMutex.free :=
  (lock_released demoEnv demoGated ⟨"a", 5⟩ 0 (Iface.ref 1) (Iface.ref 2) ["x"]).2.2.2.2.2.2
    (by decide)

end Esgo
